import Mathlib

/-!
# Verification of the UTF-8 byte-level DFA builder (`src/dfa.rs`)

This file gives a shallow embedding of the repository's byte-level DFA and
its builder, and proves (or refutes) the specified properties.

Conventions of the embedding:
* Rust `u32` state ids and `u8` bytes become `Nat` (the values involved never
  approach the wrap-around point, and no claim hinges on overflow).
* A 256-entry transition row `[u32; 256]` becomes a total function
  `Nat → Nat`; only arguments `< 256` are ever relevant.
* `Vec` becomes `List`, `Vec::resize` is modelled literally by `listResize`.
* `HashMap<Utf8State, u32>` becomes an association list; the code only
  inserts a key after a failed lookup, so prepending is a faithful model.
* The borrow-scoped `DFAStateBuilder<'a>` handle is split into a pure record
  (`DFAStateBuilder`) plus explicit passing of the parent `DFABuilder`.
* Rust panics (out-of-range indexing) in the read-only `DFA` accessors are
  modelled with `Option`.
-/

set_option maxRecDepth 40000

namespace LevDFA

/-- Modelled from the spec: the `Distance` type lives in a repository file
that is not under `src/` (it is imported there with `use super::Distance`).
The spec describes it as the tagged union `{Exact(n), AtLeast(n)}` with `n`
a small bounded integer (a `u8` in the test suite, sentinel `AtLeast(255)`). -/
inductive Distance where
  | Exact : Nat → Distance
  | AtLeast : Nat → Distance
deriving DecidableEq, Repr

/-- The builder-internal encoded-state key (`enum Utf8State` in `dfa.rs`). -/
inductive Utf8State where
  | Original : Nat → Utf8State
  | Predecessor : Nat → Nat → Utf8State
deriving DecidableEq, Repr

/-- A 256-entry transition row `[u32; 256]`, as a total function on bytes. -/
abbrev Row : Type := Nat → Nat

/-- Single-entry row update, `row[b] = v`. -/
def updRow (r : Row) (b v : Nat) : Row :=
  fun x => if x = b then v else r x

/-- Literal model of `Vec::resize(new_len, value)`. -/
def listResize (l : List α) (n : Nat) (v : α) : List α :=
  if n ≤ l.length then l.take n else l ++ List.replicate (n - l.length) v

/-- Lookup in the interning map (`HashMap::get`), as association-list search. -/
def assocFind (l : List (Utf8State × Nat)) (k : Utf8State) : Option Nat :=
  match l with
  | [] => none
  | (k2, v) :: rest => if k2 = k then some v else assocFind rest k

/-- The mutable builder (`struct DFABuilder` in `dfa.rs`). -/
structure DFABuilder where
  index : List (Utf8State × Nat)
  distances : List Distance
  transitions : List Row
  initial_state : Nat
  num_states : Nat

/-- The row of state `i`, as read through `self.transitions[i]`. -/
def rowOf (dfab : DFABuilder) (i : Nat) : Row :=
  dfab.transitions.getD i (fun _ => 0)

/-- `DFABuilder::with_capacity`: capacity only preallocates, the logical
state starts empty. -/
def DFABuilder.with_capacity (_capacity : Nat) : DFABuilder :=
  { index := []
    distances := []
    transitions := []
    initial_state := 0
    num_states := 0 }

/-- `DFABuilder::allocate`. -/
def DFABuilder.allocate (dfab : DFABuilder) : Nat × DFABuilder :=
  let new_state := dfab.num_states
  (new_state,
    { dfab with
      num_states := new_state + 1
      distances := listResize dfab.distances (new_state + 1) (Distance.AtLeast 255)
      transitions := listResize dfab.transitions (new_state + 1) (fun _ => 0) })

/-- `DFABuilder::get_or_allocate`. -/
def DFABuilder.get_or_allocate (dfab : DFABuilder) (state : Utf8State) : Nat × DFABuilder :=
  match assocFind dfab.index state with
  | some v => (v, dfab)
  | none =>
      let r := dfab.allocate
      (r.1, { r.2 with index := (state, r.1) :: r.2.index })

/-- `DFABuilder::set_initial_state`. -/
def DFABuilder.set_initial_state (dfab : DFABuilder) (initial_state : Nat) : DFABuilder :=
  let r := dfab.get_or_allocate (Utf8State.Original initial_state)
  { r.2 with initial_state := r.1 }

/-- The per-state handle (`struct DFAStateBuilder`), minus the mutable borrow
of the parent builder, which is passed explicitly instead. -/
structure DFAStateBuilder where
  state_id : Nat
  default_successor : List Nat
deriving DecidableEq

/-- `DFABuilder::add_state`.  The two `for` loops over `num_bytes in 1..4`
and over the four lead-byte classes are unrolled/expressed pointwise; the
`fill` helper of `dfa.rs` becomes writing a constant row. -/
def DFABuilder.add_state (dfab : DFABuilder) (state : Nat) (distance : Distance)
    (default_successor_orig : Nat) : DFAStateBuilder × DFABuilder :=
  let r0 := dfab.get_or_allocate (Utf8State.Original state)
  let state_id := r0.1
  let dfab0 := { r0.2 with distances := r0.2.distances.set state_id distance }
  let r1 := dfab0.get_or_allocate (Utf8State.Original default_successor_orig)
  let default_successor_id := r1.1
  -- num_bytes = 1
  let rp1 := r1.2.get_or_allocate (Utf8State.Predecessor default_successor_id 1)
  let p1 := rp1.1
  let dfab1 :=
    { rp1.2 with transitions := rp1.2.transitions.set p1 (fun _ => default_successor_id) }
  -- num_bytes = 2
  let rp2 := dfab1.get_or_allocate (Utf8State.Predecessor default_successor_id 2)
  let p2 := rp2.1
  let dfab2 := { rp2.2 with transitions := rp2.2.transitions.set p2 (fun _ => p1) }
  -- num_bytes = 3
  let rp3 := dfab2.get_or_allocate (Utf8State.Predecessor default_successor_id 3)
  let p3 := rp3.1
  let dfab3 := { rp3.2 with transitions := rp3.2.transitions.set p3 (fun _ => p2) }
  -- populate the originating state's own row by UTF-8 lead-byte class
  let row : Row := fun b =>
    if b < 192 then default_successor_id
    else if b < 224 then p1
    else if b < 240 then p2
    else p3
  let dfab4 := { dfab3 with transitions := dfab3.transitions.set state_id row }
  (⟨state_id, [default_successor_id, p1, p2, p3]⟩, dfab4)

/-- `DFAStateBuilder::add_transition_id` (the parent builder is explicit). -/
def add_transition_id (dfab : DFABuilder) (from_state_id : Nat) (b : Nat)
    (to_state_id : Nat) : DFABuilder :=
  { dfab with
    transitions :=
      dfab.transitions.set from_state_id (updRow (rowOf dfab from_state_id) b to_state_id) }

/-- Model of Rust `char::encode_utf8`: the standard UTF-8 encoding of a
Unicode scalar value, by the usual thresholds. -/
def encodeUtf8 (c : Nat) : List Nat :=
  if c < 0x80 then [c]
  else if c < 0x800 then
    [0xC0 + c / 64, 0x80 + c % 64]
  else if c < 0x10000 then
    [0xE0 + c / 4096, 0x80 + c / 64 % 64, 0x80 + c % 64]
  else
    [0xF0 + c / 262144, 0x80 + c / 4096 % 64, 0x80 + c / 64 % 64, 0x80 + c % 64]

/-- The loop body of `DFAStateBuilder::add_transition`: walks every byte of
the encoding but the last (third match arm, where `remaining_num_bytes` is
the number of bytes still to come), then installs the destination on the
final byte (second arm).  `encodeUtf8` never returns `[]`. -/
def addTransitionGo (dfab : DFABuilder) (defaults : List Nat) (to_state_id : Nat)
    (from_state_id_decoded : Nat) : List Nat → DFABuilder
  | [] => dfab
  | [b] =>
      let r := dfab.get_or_allocate (Utf8State.Original to_state_id)
      add_transition_id r.2 from_state_id_decoded b r.1
  | b :: rest =>
      let remaining_num_bytes := rest.length
      let default_successor := defaults.getD remaining_num_bytes 0
      let i0 := rowOf dfab from_state_id_decoded b
      let ri :=
        if i0 = default_successor then
          let ra := dfab.allocate
          (ra.1,
            { ra.2 with transitions := ra.2.transitions.set ra.1 (fun _ => default_successor) })
        else (i0, dfab)
      let dfab2 := add_transition_id ri.2 from_state_id_decoded b ri.1
      addTransitionGo dfab2 defaults to_state_id ri.1 rest

/-- `DFAStateBuilder::add_transition`. -/
def DFABuilder.add_transition (dfab : DFABuilder) (sb : DFAStateBuilder) (chr : Nat)
    (to_state_id : Nat) : DFABuilder :=
  addTransitionGo dfab sb.default_successor to_state_id sb.state_id (encodeUtf8 chr)

/-- The frozen automaton (`struct DFA`). -/
structure DFA where
  transitions : List Row
  distances : List Distance
  initial_state : Nat

/-- `DFABuilder::build`. -/
def DFABuilder.build (dfab : DFABuilder) : DFA :=
  { transitions := dfab.transitions
    distances := dfab.distances
    initial_state := dfab.initial_state }

/-- `DFA::initial_state`. -/
def DFA.initial_state' (dfa : DFA) : Nat := dfa.initial_state

/-- `DFA::transition`; `none` models the panic of an out-of-range index. -/
def DFA.transition (dfa : DFA) (from_state_id : Nat) (b : Nat) : Option Nat :=
  (dfa.transitions[from_state_id]?).map (fun r => r b)

/-- `DFA::distance`; `none` models the panic of an out-of-range index. -/
def DFA.distance (dfa : DFA) (state_id : Nat) : Option Distance :=
  dfa.distances[state_id]?

/-- `DFA::num_states`. -/
def DFA.num_states (dfa : DFA) : Nat := dfa.transitions.length

/-- The loop of `DFA::eval`, from an explicit current state. -/
def DFA.evalFrom (dfa : DFA) (state : Nat) : List Nat → Option Distance
  | [] => dfa.distance state
  | b :: rest =>
      match dfa.transition state b with
      | some state2 => dfa.evalFrom state2 rest
      | none => none

/-- `DFA::eval` over a byte sequence. -/
def DFA.eval (dfa : DFA) (text : List Nat) : Option Distance :=
  dfa.evalFrom dfa.initial_state text

/-- One caller-visible builder step.  `addState` carries the explicit
`(character, destination)` transitions subsequently added through the
returned `DFAStateBuilder` handle, matching the borrow discipline of the
Rust API (the handle cannot outlive the next builder call). -/
inductive BuilderOp where
  | setInitial : Nat → BuilderOp
  | addState : Nat → Distance → Nat → List (Nat × Nat) → BuilderOp

/-- Run one builder operation. -/
def runOp (dfab : DFABuilder) : BuilderOp → DFABuilder
  | BuilderOp.setInitial i => dfab.set_initial_state i
  | BuilderOp.addState s d succ ts =>
      let r := dfab.add_state s d succ
      ts.foldl (fun acc ct => acc.add_transition r.1 ct.1 ct.2) r.2

/-- Run a caller session from a fresh builder. -/
def runOps (ops : List BuilderOp) : DFABuilder :=
  ops.foldl runOp (DFABuilder.with_capacity ops.length)

/-- The builder session of the repository test `tests::test_utf8_dfa_builder`. -/
def parityOps : List BuilderOp :=
  [BuilderOp.addState 0 (Distance.Exact 1) 1 [],
   BuilderOp.addState 1 (Distance.Exact 0) 0 [],
   BuilderOp.setInitial 1]

/-- The automaton of the repository test. -/
def parityDFA : DFA := (runOps parityOps).build

/-! ## List helper lemmas -/

theorem getD_set_self (l : List α) (i : Nat) (v d : α) (h : i < l.length) :
    (l.set i v).getD i d = v := by
  induction l generalizing i with
  | nil => simp at h
  | cons a t ih =>
    cases i with
    | zero => rfl
    | succ n => exact ih n (by simpa using h)

theorem getD_set_ne (l : List α) (i j : Nat) (v d : α) (h : i ≠ j) :
    (l.set i v).getD j d = l.getD j d := by
  induction l generalizing i j with
  | nil => rfl
  | cons a t ih =>
    cases i with
    | zero =>
      cases j with
      | zero => exact absurd rfl h
      | succ m => rfl
    | succ n =>
      cases j with
      | zero => rfl
      | succ m => exact ih n m (fun hh => h (by rw [hh]))

theorem getD_append_left (l l' : List α) (i : Nat) (d : α) (h : i < l.length) :
    (l ++ l').getD i d = l.getD i d := by
  induction l generalizing i with
  | nil => simp at h
  | cons a t ih =>
    cases i with
    | zero => rfl
    | succ n => exact ih n (by simpa using h)

theorem getD_append_self (l : List α) (v d : α) :
    (l ++ [v]).getD l.length d = v := by
  induction l with
  | nil => rfl
  | cons a t ih => exact ih

theorem listResize_append (l : List α) (n : Nat) (v : α) (h : l.length = n) :
    listResize l (n + 1) v = l ++ [v] := by
  unfold listResize
  rw [if_neg (by omega)]
  have h1 : n + 1 - l.length = 1 := by omega
  rw [h1]
  rfl

theorem mem_of_mem_set (l : List α) (i : Nat) (v a : α) (h : a ∈ l.set i v) :
    a ∈ l ∨ a = v := by
  induction l generalizing i with
  | nil => simp [List.set] at h
  | cons x t ih =>
    cases i with
    | zero =>
      rcases List.mem_cons.mp h with h1 | h1
      · exact Or.inr h1
      · exact Or.inl (List.mem_cons_of_mem _ h1)
    | succ n =>
      rcases List.mem_cons.mp h with h1 | h1
      · exact Or.inl (h1 ▸ List.mem_cons_self _ _)
      · rcases ih n h1 with h2 | h2
        · exact Or.inl (List.mem_cons_of_mem _ h2)
        · exact Or.inr h2

theorem getD_mem (l : List α) (i : Nat) (d : α) (h : i < l.length) :
    l.getD i d ∈ l := by
  induction l generalizing i with
  | nil => simp at h
  | cons a t ih =>
    cases i with
    | zero => exact List.mem_cons_self _ _
    | succ n => exact List.mem_cons_of_mem _ (ih n (by simpa using h))

theorem assocFind_prepend_self (idx : List (Utf8State × Nat)) (k : Utf8State) (v : Nat) :
    assocFind ((k, v) :: idx) k = some v := by
  unfold assocFind
  rw [if_pos rfl]

theorem assocFind_prepend_of_none (idx : List (Utf8State × Nat)) (k k2 : Utf8State)
    (v v2 : Nat) (h2 : assocFind idx k2 = none) (h : assocFind idx k = some v) :
    assocFind ((k2, v2) :: idx) k = some v := by
  unfold assocFind
  rw [if_neg, h]
  intro he
  rw [he, h] at h2
  exact Option.noConfusion h2

/-! ## The builder invariant -/

/-- Well-formedness of a builder state: the parallel arrays are aligned with
`num_states`, interned ids are in range and distinct keys get distinct ids,
every transition-row entry is in range, and the initial state is in range
(or still the untouched `0`). -/
structure Inv (dfab : DFABuilder) : Prop where
  dist_len : dfab.distances.length = dfab.num_states
  trans_len : dfab.transitions.length = dfab.num_states
  index_lt : ∀ k v, assocFind dfab.index k = some v → v < dfab.num_states
  index_inj : ∀ k1 k2 v, assocFind dfab.index k1 = some v →
      assocFind dfab.index k2 = some v → k1 = k2
  rows_lt : ∀ r ∈ dfab.transitions, ∀ b, r b < dfab.num_states
  init_ok : dfab.initial_state < dfab.num_states ∨ dfab.initial_state = 0

theorem inv_with_capacity (c : Nat) : Inv (DFABuilder.with_capacity c) := by
  refine ⟨rfl, rfl, ?_, ?_, ?_, Or.inr rfl⟩
  · intro k v h
    exact Option.noConfusion h
  · intro k1 k2 v h
    exact absurd h (by intro hh; exact Option.noConfusion hh)
  · intro r hr
    exact absurd hr (by simp [DFABuilder.with_capacity])

theorem rowOf_lt (dfab : DFABuilder) (h : Inv dfab) (i : Nat) (hi : i < dfab.num_states)
    (b : Nat) : rowOf dfab i b < dfab.num_states := by
  have hlen : i < dfab.transitions.length := by rw [h.trans_len]; exact hi
  exact h.rows_lt _ (getD_mem _ _ _ hlen) b

theorem allocate_spec (dfab : DFABuilder) (h : Inv dfab) :
    (dfab.allocate).1 = dfab.num_states ∧
    (dfab.allocate).2.num_states = dfab.num_states + 1 ∧
    (dfab.allocate).2.index = dfab.index ∧
    (dfab.allocate).2.distances = dfab.distances ++ [Distance.AtLeast 255] ∧
    (dfab.allocate).2.transitions = dfab.transitions ++ [fun _ => 0] ∧
    (dfab.allocate).2.initial_state = dfab.initial_state ∧
    Inv (dfab.allocate).2 := by
  have hd : listResize dfab.distances (dfab.num_states + 1) (Distance.AtLeast 255) =
      dfab.distances ++ [Distance.AtLeast 255] := listResize_append _ _ _ h.dist_len
  have ht : listResize dfab.transitions (dfab.num_states + 1) (fun _ => 0) =
      dfab.transitions ++ [fun _ => 0] := listResize_append _ _ _ h.trans_len
  refine ⟨rfl, rfl, rfl, hd, ht, rfl, ?_⟩
  refine ⟨?_, ?_, ?_, ?_, ?_, ?_⟩
  · show (listResize dfab.distances (dfab.num_states + 1) (Distance.AtLeast 255)).length =
      dfab.num_states + 1
    rw [hd, List.length_append, h.dist_len]
    rfl
  · show (listResize dfab.transitions (dfab.num_states + 1) (fun _ => 0)).length =
      dfab.num_states + 1
    rw [ht, List.length_append, h.trans_len]
    rfl
  · intro k v hkv
    exact Nat.lt_succ_of_lt (h.index_lt k v hkv)
  · exact h.index_inj
  · intro r hr b
    rw [show (dfab.allocate).2.transitions =
        listResize dfab.transitions (dfab.num_states + 1) (fun _ => 0) from rfl, ht] at hr
    rcases List.mem_append.mp hr with h1 | h1
    · exact Nat.lt_succ_of_lt (h.rows_lt r h1 b)
    · have : r = (fun _ => 0) := by simpa using h1
      rw [this]
      exact Nat.succ_pos _
  · rcases h.init_ok with h1 | h1
    · exact Or.inl (Nat.lt_succ_of_lt h1)
    · exact Or.inr h1

theorem goa_spec (dfab : DFABuilder) (k : Utf8State) (h : Inv dfab) :
    Inv (dfab.get_or_allocate k).2 ∧
    (dfab.get_or_allocate k).1 < (dfab.get_or_allocate k).2.num_states ∧
    assocFind (dfab.get_or_allocate k).2.index k = some (dfab.get_or_allocate k).1 ∧
    dfab.num_states ≤ (dfab.get_or_allocate k).2.num_states ∧
    (dfab.get_or_allocate k).2.num_states ≤ dfab.num_states + 1 ∧
    (∀ k2 v, assocFind dfab.index k2 = some v →
      assocFind (dfab.get_or_allocate k).2.index k2 = some v) ∧
    (∀ i, i < dfab.num_states → ∀ b, rowOf (dfab.get_or_allocate k).2 i b = rowOf dfab i b) ∧
    (∀ i d, i < dfab.num_states →
      (dfab.get_or_allocate k).2.distances.getD i d = dfab.distances.getD i d) ∧
    (dfab.get_or_allocate k).2.initial_state = dfab.initial_state := by
  cases hfind : assocFind dfab.index k with
  | some v =>
    have he1 : (dfab.get_or_allocate k).1 = v := by
      simp [DFABuilder.get_or_allocate, hfind]
    have he2 : (dfab.get_or_allocate k).2 = dfab := by
      simp [DFABuilder.get_or_allocate, hfind]
    rw [he1, he2]
    exact ⟨h, h.index_lt k v hfind, hfind, Nat.le_refl _, Nat.le_succ _,
      fun k2 v2 hh => hh, fun i _ b => rfl, fun i d _ => rfl, rfl⟩
  | none =>
    obtain ⟨ha1, ha2, ha3, ha4, ha5, ha6, ha7⟩ := allocate_spec dfab h
    simp only [DFABuilder.get_or_allocate, hfind]
    have hnum : ({ (dfab.allocate).2 with
        index := (k, (dfab.allocate).1) :: (dfab.allocate).2.index } : DFABuilder).num_states =
        dfab.num_states + 1 := ha2
    refine ⟨?_, ?_, ?_, ?_, ?_, ?_, ?_, ?_, ?_⟩
    · refine ⟨ha7.dist_len, ha7.trans_len, ?_, ?_, ha7.rows_lt, ha7.init_ok⟩
      · intro k2 v2 hkv
        unfold assocFind at hkv
        by_cases hk : k = k2
        · rw [if_pos hk] at hkv
          rw [ha2, ← Option.some_inj.mp hkv, ha1]
          exact Nat.lt_succ_self _
        · rw [if_neg hk] at hkv
          rw [ha3] at hkv
          exact ha7.index_lt k2 v2 (by rw [ha3]; exact hkv)
      · intro k1 k2 v2 h1 h2
        unfold assocFind at h1 h2
        by_cases hk1 : k = k1 <;> by_cases hk2 : k = k2
        · rw [← hk1, ← hk2]
        · rw [if_pos hk1] at h1
          rw [if_neg hk2, ha3] at h2
          have := h.index_lt k2 v2 h2
          rw [← Option.some_inj.mp h1, ha1] at this
          exact absurd this (Nat.lt_irrefl _)
        · rw [if_pos hk2] at h2
          rw [if_neg hk1, ha3] at h1
          have := h.index_lt k1 v2 h1
          rw [← Option.some_inj.mp h2, ha1] at this
          exact absurd this (Nat.lt_irrefl _)
        · rw [if_neg hk1, ha3] at h1
          rw [if_neg hk2, ha3] at h2
          exact h.index_inj k1 k2 v2 h1 h2
    · rw [hnum, ha1]
      exact Nat.lt_succ_self _
    · exact assocFind_prepend_self _ _ _
    · rw [hnum]
      exact Nat.le_succ _
    · rw [hnum]
    · intro k2 v2 hh
      have hk : k ≠ k2 := by
        intro he
        rw [he, hh] at hfind
        exact Option.noConfusion hfind
      show assocFind ((k, (dfab.allocate).1) :: (dfab.allocate).2.index) k2 = some v2
      unfold assocFind
      rw [if_neg hk, ha3]
      exact hh
    · intro i hi b
      show ((dfab.allocate).2.transitions).getD i (fun _ => 0) b = rowOf dfab i b
      rw [ha5, getD_append_left _ _ _ _ (by rw [h.trans_len]; exact hi)]
      rfl
    · intro i d hi
      show ((dfab.allocate).2.distances).getD i d = dfab.distances.getD i d
      rw [ha4, getD_append_left _ _ _ _ (by rw [h.dist_len]; exact hi)]
    · exact ha6

theorem setDist_inv (dfab : DFABuilder) (i : Nat) (d : Distance) (h : Inv dfab) :
    Inv { dfab with distances := dfab.distances.set i d } := by
  refine ⟨?_, h.trans_len, h.index_lt, h.index_inj, h.rows_lt, h.init_ok⟩
  show (dfab.distances.set i d).length = _
  rw [List.length_set]
  exact h.dist_len

theorem setRow_inv (dfab : DFABuilder) (i : Nat) (row : Row) (h : Inv dfab)
    (hrow : ∀ b, row b < dfab.num_states) :
    Inv { dfab with transitions := dfab.transitions.set i row } := by
  refine ⟨h.dist_len, ?_, h.index_lt, h.index_inj, ?_, h.init_ok⟩
  · show (dfab.transitions.set i row).length = _
    rw [List.length_set]
    exact h.trans_len
  · intro r hr b
    rcases mem_of_mem_set _ _ _ _ hr with h1 | h1
    · exact h.rows_lt r h1 b
    · rw [h1]
      exact hrow b

theorem rowOf_set_self (dfab : DFABuilder) (i : Nat) (row : Row)
    (hi : i < dfab.transitions.length) :
    rowOf { dfab with transitions := dfab.transitions.set i row } i = row :=
  getD_set_self _ _ _ _ hi

theorem rowOf_set_ne (dfab : DFABuilder) (i j : Nat) (row : Row) (hij : i ≠ j) :
    rowOf { dfab with transitions := dfab.transitions.set i row } j = rowOf dfab j :=
  getD_set_ne _ _ _ _ _ hij

/-- Full specification of one `add_state` call on a well-formed builder:
the returned handle carries the interned id of the registered state together
with `[default successor, remaining=1, remaining=2, remaining=3]`; the four
keys are interned; the predecessor rows chain down to the default successor;
and the state's own row is populated by UTF-8 lead-byte class. -/
theorem add_state_spec (dfab : DFABuilder) (s : Nat) (d : Distance) (succ : Nat)
    (h : Inv dfab) :
    ∃ sid q0 q1 q2 q3,
      (dfab.add_state s d succ).1 = ⟨sid, [q0, q1, q2, q3]⟩ ∧
      Inv (dfab.add_state s d succ).2 ∧
      dfab.num_states ≤ (dfab.add_state s d succ).2.num_states ∧
      sid < (dfab.add_state s d succ).2.num_states ∧
      assocFind (dfab.add_state s d succ).2.index (Utf8State.Original s) = some sid ∧
      assocFind (dfab.add_state s d succ).2.index (Utf8State.Original succ) = some q0 ∧
      assocFind (dfab.add_state s d succ).2.index (Utf8State.Predecessor q0 1) = some q1 ∧
      assocFind (dfab.add_state s d succ).2.index (Utf8State.Predecessor q0 2) = some q2 ∧
      assocFind (dfab.add_state s d succ).2.index (Utf8State.Predecessor q0 3) = some q3 ∧
      (∀ b, rowOf (dfab.add_state s d succ).2 sid b =
        if b < 192 then q0 else if b < 224 then q1 else if b < 240 then q2 else q3) ∧
      (∀ b, rowOf (dfab.add_state s d succ).2 q1 b = q0) ∧
      (∀ b, rowOf (dfab.add_state s d succ).2 q2 b = q1) ∧
      (∀ b, rowOf (dfab.add_state s d succ).2 q3 b = q2) ∧
      (∀ k v, assocFind dfab.index k = some v →
        assocFind (dfab.add_state s d succ).2.index k = some v) := by
  -- stage 0: intern the state itself
  obtain ⟨I0, lt0, find0, mono0, _, pers0, rows0, dist0, init0⟩ :=
    goa_spec dfab (Utf8State.Original s) h
  set R0 := dfab.get_or_allocate (Utf8State.Original s)
  -- stage A1: store the distance
  set A1 := { R0.2 with distances := R0.2.distances.set R0.1 d }
  have I1 : Inv A1 := setDist_inv R0.2 R0.1 d I0
  -- stage 1: intern the default successor
  obtain ⟨I2, lt2, find2, mono2, _, pers2, rows2, dist2, init2⟩ :=
    goa_spec A1 (Utf8State.Original succ) I1
  set R1 := A1.get_or_allocate (Utf8State.Original succ)
  -- stage p1: intern the remaining=1 predecessor and fill its row
  obtain ⟨J1, ltp1, findp1, monop1, _, persp1, rowsp1, distp1, initp1⟩ :=
    goa_spec R1.2 (Utf8State.Predecessor R1.1 1) I2
  set RP1 := R1.2.get_or_allocate (Utf8State.Predecessor R1.1 1)
  set A3 := { RP1.2 with transitions := RP1.2.transitions.set RP1.1 (fun _ => R1.1) }
  have I3 : Inv A3 := setRow_inv RP1.2 RP1.1 (fun _ => R1.1) J1
    (fun _ => Nat.lt_of_lt_of_le lt2 monop1)
  have row1 : rowOf A3 RP1.1 = (fun _ => R1.1) :=
    rowOf_set_self RP1.2 RP1.1 _ (by rw [J1.trans_len]; exact ltp1)
  -- stage p2
  obtain ⟨J2, ltp2, findp2, monop2, _, persp2, rowsp2, distp2, initp2⟩ :=
    goa_spec A3 (Utf8State.Predecessor R1.1 2) I3
  set RP2 := A3.get_or_allocate (Utf8State.Predecessor R1.1 2)
  set A4 := { RP2.2 with transitions := RP2.2.transitions.set RP2.1 (fun _ => RP1.1) }
  have I4 : Inv A4 := setRow_inv RP2.2 RP2.1 (fun _ => RP1.1) J2
    (fun _ => Nat.lt_of_lt_of_le ltp1 monop2)
  have row2 : rowOf A4 RP2.1 = (fun _ => RP1.1) :=
    rowOf_set_self RP2.2 RP2.1 _ (by rw [J2.trans_len]; exact ltp2)
  have findp1' : assocFind RP2.2.index (Utf8State.Predecessor R1.1 1) = some RP1.1 :=
    persp2 _ _ findp1
  have ne21 : RP2.1 ≠ RP1.1 := by
    intro he
    have := J2.index_inj _ _ _ findp2 (he ▸ findp1')
    simp at this
  have row1' : rowOf A4 RP1.1 = (fun _ => R1.1) := by
    rw [show rowOf A4 RP1.1 = rowOf RP2.2 RP1.1 from rowOf_set_ne RP2.2 RP2.1 RP1.1 _ ne21]
    funext b
    rw [rowsp2 RP1.1 (Nat.lt_of_lt_of_le ltp1 (Nat.le_refl _)) b]
    exact congrFun row1 b
  -- stage p3
  obtain ⟨J3, ltp3, findp3, monop3, _, persp3, rowsp3, distp3, initp3⟩ :=
    goa_spec A4 (Utf8State.Predecessor R1.1 3) I4
  set RP3 := A4.get_or_allocate (Utf8State.Predecessor R1.1 3)
  set A5 := { RP3.2 with transitions := RP3.2.transitions.set RP3.1 (fun _ => RP2.1) }
  have I5 : Inv A5 := setRow_inv RP3.2 RP3.1 (fun _ => RP2.1) J3
    (fun _ => Nat.lt_of_lt_of_le ltp2 monop3)
  have row3 : rowOf A5 RP3.1 = (fun _ => RP2.1) :=
    rowOf_set_self RP3.2 RP3.1 _ (by rw [J3.trans_len]; exact ltp3)
  have findp1'' : assocFind RP3.2.index (Utf8State.Predecessor R1.1 1) = some RP1.1 :=
    persp3 _ _ findp1'
  have findp2' : assocFind RP3.2.index (Utf8State.Predecessor R1.1 2) = some RP2.1 :=
    persp3 _ _ findp2
  have ne31 : RP3.1 ≠ RP1.1 := by
    intro he
    have := J3.index_inj _ _ _ findp3 (he ▸ findp1'')
    simp at this
  have ne32 : RP3.1 ≠ RP2.1 := by
    intro he
    have := J3.index_inj _ _ _ findp3 (he ▸ findp2')
    simp at this
  have row1'' : rowOf A5 RP1.1 = (fun _ => R1.1) := by
    rw [show rowOf A5 RP1.1 = rowOf RP3.2 RP1.1 from rowOf_set_ne RP3.2 RP3.1 RP1.1 _ ne31]
    funext b
    rw [rowsp3 RP1.1 (Nat.lt_of_lt_of_le ltp1 monop2) b]
    exact congrFun row1' b
  have row2' : rowOf A5 RP2.1 = (fun _ => RP1.1) := by
    rw [show rowOf A5 RP2.1 = rowOf RP3.2 RP2.1 from rowOf_set_ne RP3.2 RP3.1 RP2.1 _ ne32]
    funext b
    rw [rowsp3 RP2.1 ltp2 b]
    exact congrFun row2 b
  -- final stage: populate the state's own row by lead-byte class
  set rowFn : Row := fun b =>
    if b < 192 then R1.1 else if b < 224 then RP1.1 else if b < 240 then RP2.1 else RP3.1
  set A6 := { A5 with transitions := A5.transitions.set R0.1 rowFn }
  have lt0' : R0.1 < A5.num_states :=
    Nat.lt_of_lt_of_le lt0
      (Nat.le_trans mono2 (Nat.le_trans monop1 (Nat.le_trans monop2 monop3)))
  have I6 : Inv A6 := by
    refine setRow_inv A5 R0.1 rowFn I5 ?_
    intro b
    show (if b < 192 then R1.1 else if b < 224 then RP1.1 else if b < 240 then RP2.1
      else RP3.1) < A5.num_states
    by_cases h1 : b < 192
    · rw [if_pos h1]
      exact Nat.lt_of_lt_of_le lt2 (Nat.le_trans monop1 (Nat.le_trans monop2 monop3))
    rw [if_neg h1]
    by_cases h2 : b < 224
    · rw [if_pos h2]
      exact Nat.lt_of_lt_of_le ltp1 (Nat.le_trans monop2 monop3)
    rw [if_neg h2]
    by_cases h3 : b < 240
    · rw [if_pos h3]
      exact Nat.lt_of_lt_of_le ltp2 monop3
    · rw [if_neg h3]
      exact ltp3
  have rowS : rowOf A6 R0.1 = rowFn :=
    rowOf_set_self A5 R0.1 rowFn (by rw [I5.trans_len]; exact lt0')
  -- identify the result of add_state with the staged computation
  have heq : dfab.add_state s d succ = (⟨R0.1, [R1.1, RP1.1, RP2.1, RP3.1]⟩, A6) := rfl
  -- distinctness of the final row's index from the predecessor ids
  have find0A : assocFind A6.index (Utf8State.Original s) = some R0.1 :=
    persp3 _ _ (persp2 _ _ (persp1 _ _ (pers2 _ _ find0)))
  have find2A : assocFind A6.index (Utf8State.Original succ) = some R1.1 :=
    persp3 _ _ (persp2 _ _ (persp1 _ _ find2))
  have findp1A : assocFind A6.index (Utf8State.Predecessor R1.1 1) = some RP1.1 := findp1''
  have findp2A : assocFind A6.index (Utf8State.Predecessor R1.1 2) = some RP2.1 := findp2'
  have findp3A : assocFind A6.index (Utf8State.Predecessor R1.1 3) = some RP3.1 := findp3
  have neS1 : R0.1 ≠ RP1.1 := by
    intro he
    have := I6.index_inj _ _ _ find0A (he ▸ findp1A)
    simp at this
  have neS2 : R0.1 ≠ RP2.1 := by
    intro he
    have := I6.index_inj _ _ _ find0A (he ▸ findp2A)
    simp at this
  have neS3 : R0.1 ≠ RP3.1 := by
    intro he
    have := I6.index_inj _ _ _ find0A (he ▸ findp3A)
    simp at this
  have row1F : rowOf A6 RP1.1 = (fun _ => R1.1) := by
    rw [show rowOf A6 RP1.1 = rowOf A5 RP1.1 from
      rowOf_set_ne A5 R0.1 RP1.1 _ (fun he => neS1 he)]
    exact row1''
  have row2F : rowOf A6 RP2.1 = (fun _ => RP1.1) := by
    rw [show rowOf A6 RP2.1 = rowOf A5 RP2.1 from
      rowOf_set_ne A5 R0.1 RP2.1 _ (fun he => neS2 he)]
    exact row2'
  have row3F : rowOf A6 RP3.1 = (fun _ => RP2.1) := by
    rw [show rowOf A6 RP3.1 = rowOf A5 RP3.1 from
      rowOf_set_ne A5 R0.1 RP3.1 _ (fun he => neS3 he)]
    exact row3
  refine ⟨R0.1, R1.1, RP1.1, RP2.1, RP3.1, ?_, ?_, ?_, ?_, ?_, ?_, ?_, ?_, ?_, ?_, ?_, ?_,
    ?_, ?_⟩
  · rw [heq]
  · rw [heq]
    exact I6
  · rw [heq]
    exact Nat.le_trans mono0
      (Nat.le_trans mono2 (Nat.le_trans monop1 (Nat.le_trans monop2 monop3)))
  · rw [heq]
    exact lt0'
  · rw [heq]
    exact find0A
  · rw [heq]
    exact find2A
  · rw [heq]
    exact findp1A
  · rw [heq]
    exact findp2A
  · rw [heq]
    exact findp3A
  · rw [heq]
    intro b
    exact congrFun rowS b
  · rw [heq]
    intro b
    exact congrFun row1F b
  · rw [heq]
    intro b
    exact congrFun row2F b
  · rw [heq]
    intro b
    exact congrFun row3F b
  · rw [heq]
    intro k v hv
    exact persp3 _ _ (persp2 _ _ (persp1 _ _ (pers2 _ _ (pers0 _ _ hv))))

theorem add_transition_id_inv (dfab : DFABuilder) (fid b tid : Nat) (h : Inv dfab)
    (hfid : fid < dfab.num_states) (htid : tid < dfab.num_states) :
    Inv (add_transition_id dfab fid b tid) ∧
    (add_transition_id dfab fid b tid).num_states = dfab.num_states := by
  refine ⟨setRow_inv dfab fid _ h ?_, rfl⟩
  intro x
  show updRow (rowOf dfab fid) b tid x < _
  unfold updRow
  by_cases hx : x = b
  · rw [if_pos hx]
    exact htid
  · rw [if_neg hx]
    exact rowOf_lt dfab h fid hfid x

theorem addTransitionGo_inv (bytes : List Nat) (defaults : List Nat) (t : Nat)
    (dfab : DFABuilder) (fid : Nat) (h : Inv dfab) (hfid : fid < dfab.num_states) :
    Inv (addTransitionGo dfab defaults t fid bytes) ∧
    dfab.num_states ≤ (addTransitionGo dfab defaults t fid bytes).num_states := by
  induction bytes generalizing dfab fid with
  | nil => exact ⟨h, Nat.le_refl _⟩
  | cons b rest ih =>
    cases rest with
    | nil =>
      obtain ⟨I, lt1, _, mono, _, _, _, _, _⟩ := goa_spec dfab (Utf8State.Original t) h
      obtain ⟨I2, e⟩ :=
        add_transition_id_inv (dfab.get_or_allocate (Utf8State.Original t)).2 fid b
          (dfab.get_or_allocate (Utf8State.Original t)).1 I
          (Nat.lt_of_lt_of_le hfid mono) lt1
      exact ⟨I2, by rw [show (addTransitionGo dfab defaults t fid [b]).num_states =
        (dfab.get_or_allocate (Utf8State.Original t)).2.num_states from rfl]; exact mono⟩
    | cons b2 rest2 =>
      show Inv (addTransitionGo _ defaults t _ (b2 :: rest2)) ∧ _
      by_cases hc : rowOf dfab fid b = defaults.getD (b2 :: rest2).length 0
      · -- the entry still equals the step's default successor: allocate a
        -- fresh intermediate state and fill its row with that default
        obtain ⟨ha1, ha2, ha3, ha4, ha5, ha6, ha7⟩ := allocate_spec dfab h
        have hdlt : defaults.getD (b2 :: rest2).length 0 < dfab.num_states := by
          rw [← hc]
          exact rowOf_lt dfab h fid hfid b
        have I1 : Inv { (dfab.allocate).2 with
            transitions := (dfab.allocate).2.transitions.set (dfab.allocate).1
              (fun _ => defaults.getD (b2 :: rest2).length 0) } := by
          refine setRow_inv _ _ _ ha7 ?_
          intro x
          rw [ha2]
          exact Nat.lt_succ_of_lt hdlt
        obtain ⟨I2, e2⟩ := add_transition_id_inv _ fid b (dfab.allocate).1 I1
          (by show fid < (dfab.allocate).2.num_states; rw [ha2]; exact Nat.lt_succ_of_lt hfid)
          (by show (dfab.allocate).1 < (dfab.allocate).2.num_states
              rw [ha1, ha2]; exact Nat.lt_succ_self _)
        obtain ⟨I3, m3⟩ := ih _ (dfab.allocate).1 I2
          (by rw [e2]; show (dfab.allocate).1 < (dfab.allocate).2.num_states
              rw [ha1, ha2]; exact Nat.lt_succ_self _)
        constructor
        · show Inv (addTransitionGo _ defaults t _ (b2 :: rest2))
          simp only [addTransitionGo, if_pos hc]
          exact I3
        · show dfab.num_states ≤ (addTransitionGo _ defaults t _ (b2 :: rest2)).num_states
          simp only [addTransitionGo, if_pos hc]
          refine Nat.le_trans ?_ m3
          rw [e2, ha2]
          exact Nat.le_succ _
      · -- a previous explicit transition already diverged here: reuse it
        obtain ⟨I2, e2⟩ := add_transition_id_inv dfab fid b (rowOf dfab fid b) h hfid
          (rowOf_lt dfab h fid hfid b)
        obtain ⟨I3, m3⟩ := ih _ (rowOf dfab fid b) I2
          (by rw [e2]; exact rowOf_lt dfab h fid hfid b)
        constructor
        · show Inv (addTransitionGo _ defaults t _ (b2 :: rest2))
          simp only [addTransitionGo, if_neg hc]
          exact I3
        · show dfab.num_states ≤ (addTransitionGo _ defaults t _ (b2 :: rest2)).num_states
          simp only [addTransitionGo, if_neg hc]
          rw [show dfab.num_states = (add_transition_id dfab fid b
            (rowOf dfab fid b)).num_states from rfl]
          exact m3

theorem add_transition_inv (dfab : DFABuilder) (sb : DFAStateBuilder) (c t : Nat)
    (h : Inv dfab) (hsb : sb.state_id < dfab.num_states) :
    Inv (dfab.add_transition sb c t) ∧
    dfab.num_states ≤ (dfab.add_transition sb c t).num_states :=
  addTransitionGo_inv (encodeUtf8 c) sb.default_successor t dfab sb.state_id h hsb

theorem foldl_add_transition_inv (ts : List (Nat × Nat)) (sb : DFAStateBuilder)
    (dfab : DFABuilder) (h : Inv dfab) (hsb : sb.state_id < dfab.num_states) :
    Inv (ts.foldl (fun acc ct => acc.add_transition sb ct.1 ct.2) dfab) ∧
    dfab.num_states ≤
      (ts.foldl (fun acc ct => acc.add_transition sb ct.1 ct.2) dfab).num_states := by
  induction ts generalizing dfab with
  | nil => exact ⟨h, Nat.le_refl _⟩
  | cons ct rest ih =>
    obtain ⟨I1, m1⟩ := add_transition_inv dfab sb ct.1 ct.2 h hsb
    obtain ⟨I2, m2⟩ := ih _ I1 (Nat.lt_of_lt_of_le hsb m1)
    exact ⟨I2, Nat.le_trans m1 m2⟩

theorem set_initial_state_inv (dfab : DFABuilder) (i : Nat) (h : Inv dfab) :
    Inv (dfab.set_initial_state i) ∧
    dfab.num_states ≤ (dfab.set_initial_state i).num_states := by
  obtain ⟨I, lt1, _, mono, _, _, _, _, _⟩ := goa_spec dfab (Utf8State.Original i) h
  exact ⟨⟨I.dist_len, I.trans_len, I.index_lt, I.index_inj, I.rows_lt, Or.inl lt1⟩, mono⟩

theorem runOp_inv (dfab : DFABuilder) (op : BuilderOp) (h : Inv dfab) :
    Inv (runOp dfab op) ∧ dfab.num_states ≤ (runOp dfab op).num_states := by
  cases op with
  | setInitial i => exact set_initial_state_inv dfab i h
  | addState s d succ ts =>
    obtain ⟨sid, q0, q1, q2, q3, hh, I, mono, hlt, _, _, _, _, _, _, _, _, _, _⟩ :=
      add_state_spec dfab s d succ h
    obtain ⟨I2, m2⟩ := foldl_add_transition_inv ts (dfab.add_state s d succ).1
      (dfab.add_state s d succ).2 I (by rw [hh]; exact hlt)
    exact ⟨I2, Nat.le_trans mono m2⟩

theorem inv_foldl_runOp (ops : List BuilderOp) (dfab : DFABuilder) (h : Inv dfab) :
    Inv (ops.foldl runOp dfab) := by
  induction ops generalizing dfab with
  | nil => exact h
  | cons op rest ih => exact ih _ (runOp_inv dfab op h).1

theorem inv_runOps (ops : List BuilderOp) : Inv (runOps ops) :=
  inv_foldl_runOp ops _ (inv_with_capacity _)

theorem evalFrom_total (A : DFA)
    (hrows : ∀ r ∈ A.transitions, ∀ b, r b < A.transitions.length)
    (hlen : A.transitions.length = A.distances.length) :
    ∀ (input : List Nat) (st : Nat), st < A.transitions.length →
      ∃ dd, A.evalFrom st input = some dd := by
  intro input
  induction input with
  | nil =>
    intro st hst
    have hst' : st < A.distances.length := hlen ▸ hst
    exact ⟨A.distances.get ⟨st, hst'⟩, by
      show A.distances[st]? = _
      rw [List.getElem?_eq_getElem hst']
      rfl⟩
  | cons b rest ih =>
    intro st hst
    have h2 : A.transition st b = some ((A.transitions.get ⟨st, hst⟩) b) := by
      unfold DFA.transition
      rw [List.getElem?_eq_getElem hst]
      rfl
    have h3 : (A.transitions.get ⟨st, hst⟩) b < A.transitions.length :=
      hrows _ (A.transitions.get_mem st hst) b
    obtain ⟨dd, hdd⟩ := ih _ h3
    refine ⟨dd, ?_⟩
    show DFA.evalFrom A st (b :: rest) = some dd
    unfold DFA.evalFrom
    rw [h2]
    exact hdd

/-- C8: every automaton built from any sequence of builder operations has
`len(transitions) = len(distances)`; every entry of every transition row is
a valid state id (`< num_states`); `transition` is defined and in range for
every in-range state and every byte; and `eval` never indexes out of range
on any byte input, provided at least one state exists (which holds in
particular whenever `set_initial_state` was called). -/
theorem built_automaton_total (ops : List BuilderOp) :
    ((runOps ops).build).transitions.length = ((runOps ops).build).distances.length ∧
    (∀ r ∈ ((runOps ops).build).transitions, ∀ b, b < 256 →
      r b < ((runOps ops).build).num_states) ∧
    (∀ st b, st < ((runOps ops).build).num_states → b < 256 →
      ∃ st2, ((runOps ops).build).transition st b = some st2 ∧
        st2 < ((runOps ops).build).num_states) ∧
    (∀ input : List Nat, (∀ b ∈ input, b < 256) →
      1 ≤ ((runOps ops).build).num_states →
      ∃ dd, ((runOps ops).build).eval input = some dd) := by
  have hI := inv_runOps ops
  have hrows : ∀ r ∈ ((runOps ops).build).transitions, ∀ b,
      r b < ((runOps ops).build).transitions.length := by
    intro r hr b
    rw [show ((runOps ops).build).transitions = (runOps ops).transitions from rfl,
      hI.trans_len]
    exact hI.rows_lt r hr b
  have hlen : ((runOps ops).build).transitions.length =
      ((runOps ops).build).distances.length := by
    show (runOps ops).transitions.length = (runOps ops).distances.length
    rw [hI.trans_len, hI.dist_len]
  refine ⟨hlen, ?_, ?_, ?_⟩
  · intro r hr b _
    exact hrows r hr b
  · intro st b hst _
    refine ⟨((runOps ops).build).transitions.get ⟨st, hst⟩ b, ?_, ?_⟩
    · show (((runOps ops).build).transitions[st]?).map (fun r => r b) = _
      rw [List.getElem?_eq_getElem hst]
      rfl
    · exact hrows _ (((runOps ops).build).transitions.get_mem st hst) b
  · intro input _ hpos
    have hinit : ((runOps ops).build).initial_state <
        ((runOps ops).build).transitions.length := by
      show (runOps ops).initial_state < (runOps ops).transitions.length
      rw [hI.trans_len]
      rcases hI.init_ok with h1 | h1
      · exact h1
      · rw [h1]
        have : 1 ≤ (runOps ops).transitions.length := hpos
        rw [hI.trans_len] at this
        exact this
    exact evalFrom_total ((runOps ops).build) hrows hlen input _ hinit

/-- Witness for C8 at the repository test's builder session and a mixed
1-byte/3-byte input. -/
theorem built_automaton_total_witness :
    ∃ dd, ((runOps parityOps).build).eval [97, 227, 129, 130] = some dd :=
  (built_automaton_total parityOps).2.2.2 [97, 227, 129, 130] (by decide) (by decide)

/-- C3: immediately after `add_state` returns, the registered state's
256-entry row is populated by UTF-8 lead-byte class: bytes `0x00`–`0xBF` map
directly to the interned default-successor state, `0xC0`–`0xDF` to the
`remaining = 1` predecessor, `0xE0`–`0xEF` to the `remaining = 2`
predecessor, and `0xF0`–`0xFF` to the `remaining = 3` predecessor (each
identified by its interned key in the resulting builder). -/
theorem add_state_row_by_lead_byte_class (dfab : DFABuilder) (s succ : Nat) (d : Distance)
    (h : Inv dfab) :
    ∃ sid q0 q1 q2 q3,
      (dfab.add_state s d succ).1 = ⟨sid, [q0, q1, q2, q3]⟩ ∧
      assocFind (dfab.add_state s d succ).2.index (Utf8State.Original s) = some sid ∧
      assocFind (dfab.add_state s d succ).2.index (Utf8State.Original succ) = some q0 ∧
      assocFind (dfab.add_state s d succ).2.index (Utf8State.Predecessor q0 1) = some q1 ∧
      assocFind (dfab.add_state s d succ).2.index (Utf8State.Predecessor q0 2) = some q2 ∧
      assocFind (dfab.add_state s d succ).2.index (Utf8State.Predecessor q0 3) = some q3 ∧
      (∀ b, b ≤ 0xBF → rowOf (dfab.add_state s d succ).2 sid b = q0) ∧
      (∀ b, 0xC0 ≤ b → b ≤ 0xDF → rowOf (dfab.add_state s d succ).2 sid b = q1) ∧
      (∀ b, 0xE0 ≤ b → b ≤ 0xEF → rowOf (dfab.add_state s d succ).2 sid b = q2) ∧
      (∀ b, 0xF0 ≤ b → b ≤ 0xFF → rowOf (dfab.add_state s d succ).2 sid b = q3) := by
  obtain ⟨sid, q0, q1, q2, q3, hh, _, _, _, f0, f1, f2, f3, f4, rowS, _, _, _, _⟩ :=
    add_state_spec dfab s d succ h
  refine ⟨sid, q0, q1, q2, q3, hh, f0, f1, f2, f3, f4, ?_, ?_, ?_, ?_⟩
  · intro b hb
    rw [rowS b, if_pos (by omega)]
  · intro b hb1 hb2
    rw [rowS b, if_neg (by omega), if_pos (by omega)]
  · intro b hb1 hb2
    rw [rowS b, if_neg (by omega), if_neg (by omega), if_pos (by omega)]
  · intro b hb1 hb2
    rw [rowS b, if_neg (by omega), if_neg (by omega), if_neg (by omega)]

/-- Witness for C3 on a fresh builder, registering state 0 with distance
Exact 0 and default successor 1. -/
theorem add_state_row_by_lead_byte_class_witness :
    ∃ sid q0 q1 q2 q3,
      ((DFABuilder.with_capacity 0).add_state 0 (Distance.Exact 0) 1).1 =
        ⟨sid, [q0, q1, q2, q3]⟩ ∧
      assocFind ((DFABuilder.with_capacity 0).add_state 0 (Distance.Exact 0) 1).2.index
        (Utf8State.Original 0) = some sid ∧
      assocFind ((DFABuilder.with_capacity 0).add_state 0 (Distance.Exact 0) 1).2.index
        (Utf8State.Original 1) = some q0 ∧
      assocFind ((DFABuilder.with_capacity 0).add_state 0 (Distance.Exact 0) 1).2.index
        (Utf8State.Predecessor q0 1) = some q1 ∧
      assocFind ((DFABuilder.with_capacity 0).add_state 0 (Distance.Exact 0) 1).2.index
        (Utf8State.Predecessor q0 2) = some q2 ∧
      assocFind ((DFABuilder.with_capacity 0).add_state 0 (Distance.Exact 0) 1).2.index
        (Utf8State.Predecessor q0 3) = some q3 ∧
      (∀ b, b ≤ 0xBF →
        rowOf ((DFABuilder.with_capacity 0).add_state 0 (Distance.Exact 0) 1).2 sid b = q0) ∧
      (∀ b, 0xC0 ≤ b → b ≤ 0xDF →
        rowOf ((DFABuilder.with_capacity 0).add_state 0 (Distance.Exact 0) 1).2 sid b = q1) ∧
      (∀ b, 0xE0 ≤ b → b ≤ 0xEF →
        rowOf ((DFABuilder.with_capacity 0).add_state 0 (Distance.Exact 0) 1).2 sid b = q2) ∧
      (∀ b, 0xF0 ≤ b → b ≤ 0xFF →
        rowOf ((DFABuilder.with_capacity 0).add_state 0 (Distance.Exact 0) 1).2 sid b = q3) :=
  add_state_row_by_lead_byte_class (DFABuilder.with_capacity 0) 0 1 (Distance.Exact 0)
    (inv_with_capacity 0)

/-- C4: immediately after any `add_state` call with default successor `d`,
the three synthesized `Predecessor` states for `d` form a chain: the
`remaining = 1` predecessor's entire 256-entry row points to `d`'s interned
id, the `remaining = 2` predecessor's entire row points to the
`remaining = 1` predecessor, and the `remaining = 3` predecessor's entire
row points to the `remaining = 2` predecessor. -/
theorem add_state_predecessor_chain (dfab : DFABuilder) (s succ : Nat) (d : Distance)
    (h : Inv dfab) :
    ∃ sid q0 q1 q2 q3,
      (dfab.add_state s d succ).1 = ⟨sid, [q0, q1, q2, q3]⟩ ∧
      assocFind (dfab.add_state s d succ).2.index (Utf8State.Original succ) = some q0 ∧
      assocFind (dfab.add_state s d succ).2.index (Utf8State.Predecessor q0 1) = some q1 ∧
      assocFind (dfab.add_state s d succ).2.index (Utf8State.Predecessor q0 2) = some q2 ∧
      assocFind (dfab.add_state s d succ).2.index (Utf8State.Predecessor q0 3) = some q3 ∧
      (∀ b, b < 256 → rowOf (dfab.add_state s d succ).2 q1 b = q0) ∧
      (∀ b, b < 256 → rowOf (dfab.add_state s d succ).2 q2 b = q1) ∧
      (∀ b, b < 256 → rowOf (dfab.add_state s d succ).2 q3 b = q2) := by
  obtain ⟨sid, q0, q1, q2, q3, hh, _, _, _, _, f1, f2, f3, f4, _, row1, row2, row3, _⟩ :=
    add_state_spec dfab s d succ h
  exact ⟨sid, q0, q1, q2, q3, hh, f1, f2, f3, f4,
    fun b _ => row1 b, fun b _ => row2 b, fun b _ => row3 b⟩

/-- Witness for C4 on a fresh builder. -/
theorem add_state_predecessor_chain_witness :
    ∃ sid q0 q1 q2 q3,
      ((DFABuilder.with_capacity 0).add_state 0 (Distance.Exact 0) 1).1 =
        ⟨sid, [q0, q1, q2, q3]⟩ ∧
      assocFind ((DFABuilder.with_capacity 0).add_state 0 (Distance.Exact 0) 1).2.index
        (Utf8State.Original 1) = some q0 ∧
      assocFind ((DFABuilder.with_capacity 0).add_state 0 (Distance.Exact 0) 1).2.index
        (Utf8State.Predecessor q0 1) = some q1 ∧
      assocFind ((DFABuilder.with_capacity 0).add_state 0 (Distance.Exact 0) 1).2.index
        (Utf8State.Predecessor q0 2) = some q2 ∧
      assocFind ((DFABuilder.with_capacity 0).add_state 0 (Distance.Exact 0) 1).2.index
        (Utf8State.Predecessor q0 3) = some q3 ∧
      (∀ b, b < 256 →
        rowOf ((DFABuilder.with_capacity 0).add_state 0 (Distance.Exact 0) 1).2 q1 b = q0) ∧
      (∀ b, b < 256 →
        rowOf ((DFABuilder.with_capacity 0).add_state 0 (Distance.Exact 0) 1).2 q2 b = q1) ∧
      (∀ b, b < 256 →
        rowOf ((DFABuilder.with_capacity 0).add_state 0 (Distance.Exact 0) 1).2 q3 b = q2) :=
  add_state_predecessor_chain (DFABuilder.with_capacity 0) 0 1 (Distance.Exact 0)
    (inv_with_capacity 0)

/-- Basic facts about `get_or_allocate` that need no invariant: the key is
found afterwards, the state count grows by at most one, existing bindings
persist, and a hit leaves the builder untouched. -/
theorem goa_basic (dfab : DFABuilder) (k : Utf8State) :
    assocFind (dfab.get_or_allocate k).2.index k = some (dfab.get_or_allocate k).1 ∧
    dfab.num_states ≤ (dfab.get_or_allocate k).2.num_states ∧
    (dfab.get_or_allocate k).2.num_states ≤ dfab.num_states + 1 ∧
    (∀ k2 v, assocFind dfab.index k2 = some v →
      assocFind (dfab.get_or_allocate k).2.index k2 = some v) ∧
    (∀ v, assocFind dfab.index k = some v →
      (dfab.get_or_allocate k).1 = v ∧ (dfab.get_or_allocate k).2 = dfab) := by
  cases hfind : assocFind dfab.index k with
  | some v =>
    have he1 : (dfab.get_or_allocate k).1 = v := by
      simp [DFABuilder.get_or_allocate, hfind]
    have he2 : (dfab.get_or_allocate k).2 = dfab := by
      simp [DFABuilder.get_or_allocate, hfind]
    rw [he1, he2]
    refine ⟨hfind, Nat.le_refl _, Nat.le_succ _, fun k2 v2 hh => hh, fun v2 hv2 => ?_⟩
    exact ⟨Option.some_inj.mp hv2, rfl⟩
  | none =>
    have he1 : (dfab.get_or_allocate k).1 = (dfab.allocate).1 := by
      simp [DFABuilder.get_or_allocate, hfind]
    have he2 : (dfab.get_or_allocate k).2 =
        { (dfab.allocate).2 with index := (k, (dfab.allocate).1) :: (dfab.allocate).2.index } := by
      simp [DFABuilder.get_or_allocate, hfind]
    rw [he1, he2]
    refine ⟨assocFind_prepend_self _ _ _, ?_, ?_, ?_, ?_⟩
    · exact Nat.le_succ _
    · exact Nat.le_refl _
    · intro k2 v2 hh
      have hk : k ≠ k2 := fun he => by rw [he, hh] at hfind; exact Option.noConfusion hfind
      show assocFind ((k, (dfab.allocate).1) :: (dfab.allocate).2.index) k2 = some v2
      unfold assocFind
      rw [if_neg hk]
      exact hh
    · intro v2 hv2
      exact Option.noConfusion hv2

/-- The default-successor key and its three predecessor keys are all
interned. -/
def SuccKeysIn (dfab : DFABuilder) (succ : Nat) : Prop :=
  ∃ sid, assocFind dfab.index (Utf8State.Original succ) = some sid ∧
    (∃ q, assocFind dfab.index (Utf8State.Predecessor sid 1) = some q) ∧
    (∃ q, assocFind dfab.index (Utf8State.Predecessor sid 2) = some q) ∧
    (∃ q, assocFind dfab.index (Utf8State.Predecessor sid 3) = some q)

theorem add_state_keys (dfab : DFABuilder) (s succ : Nat) (d : Distance) :
    SuccKeysIn (dfab.add_state s d succ).2 succ := by
  obtain ⟨find0, mono0, max0, pers0, hit0⟩ := goa_basic dfab (Utf8State.Original s)
  set R0 := dfab.get_or_allocate (Utf8State.Original s)
  set A1 := { R0.2 with distances := R0.2.distances.set R0.1 d }
  obtain ⟨find1, mono1, max1, pers1, hit1⟩ := goa_basic A1 (Utf8State.Original succ)
  set R1 := A1.get_or_allocate (Utf8State.Original succ)
  obtain ⟨findp1, monop1, maxp1, persp1, hitp1⟩ :=
    goa_basic R1.2 (Utf8State.Predecessor R1.1 1)
  set RP1 := R1.2.get_or_allocate (Utf8State.Predecessor R1.1 1)
  set A3 := { RP1.2 with transitions := RP1.2.transitions.set RP1.1 (fun _ => R1.1) }
  obtain ⟨findp2, monop2, maxp2, persp2, hitp2⟩ :=
    goa_basic A3 (Utf8State.Predecessor R1.1 2)
  set RP2 := A3.get_or_allocate (Utf8State.Predecessor R1.1 2)
  set A4 := { RP2.2 with transitions := RP2.2.transitions.set RP2.1 (fun _ => RP1.1) }
  obtain ⟨findp3, monop3, maxp3, persp3, hitp3⟩ :=
    goa_basic A4 (Utf8State.Predecessor R1.1 3)
  set RP3 := A4.get_or_allocate (Utf8State.Predecessor R1.1 3)
  exact ⟨R1.1, persp3 _ _ (persp2 _ _ (persp1 _ _ find1)),
    ⟨RP1.1, persp3 _ _ (persp2 _ _ findp1)⟩, ⟨RP2.1, persp3 _ _ findp2⟩, ⟨RP3.1, findp3⟩⟩

theorem add_state_growth (dfab : DFABuilder) (s succ : Nat) (d : Distance)
    (hkeys : SuccKeysIn dfab succ) :
    (dfab.add_state s d succ).2.num_states ≤ dfab.num_states + 1 := by
  obtain ⟨sid, hsid, ⟨w1, hw1⟩, ⟨w2, hw2⟩, ⟨w3, hw3⟩⟩ := hkeys
  obtain ⟨find0, mono0, max0, pers0, hit0⟩ := goa_basic dfab (Utf8State.Original s)
  set R0 := dfab.get_or_allocate (Utf8State.Original s)
  set A1 := { R0.2 with distances := R0.2.distances.set R0.1 d }
  have f1 : assocFind A1.index (Utf8State.Original succ) = some sid := pers0 _ _ hsid
  obtain ⟨_, _, _, pers1, hit1⟩ := goa_basic A1 (Utf8State.Original succ)
  set R1 := A1.get_or_allocate (Utf8State.Original succ)
  obtain ⟨hR1a, hR1b⟩ := hit1 sid f1
  have fp1 : assocFind R1.2.index (Utf8State.Predecessor R1.1 1) = some w1 := by
    rw [hR1a, hR1b]
    exact pers0 _ _ hw1
  obtain ⟨_, _, _, persp1, hitp1⟩ := goa_basic R1.2 (Utf8State.Predecessor R1.1 1)
  set RP1 := R1.2.get_or_allocate (Utf8State.Predecessor R1.1 1)
  obtain ⟨hRP1a, hRP1b⟩ := hitp1 w1 fp1
  set A3 := { RP1.2 with transitions := RP1.2.transitions.set RP1.1 (fun _ => R1.1) }
  have fp2 : assocFind A3.index (Utf8State.Predecessor R1.1 2) = some w2 := by
    show assocFind RP1.2.index _ = _
    rw [hRP1b, hR1b, hR1a]
    exact pers0 _ _ hw2
  obtain ⟨_, _, _, persp2, hitp2⟩ := goa_basic A3 (Utf8State.Predecessor R1.1 2)
  set RP2 := A3.get_or_allocate (Utf8State.Predecessor R1.1 2)
  obtain ⟨hRP2a, hRP2b⟩ := hitp2 w2 fp2
  set A4 := { RP2.2 with transitions := RP2.2.transitions.set RP2.1 (fun _ => RP1.1) }
  have fp3 : assocFind A4.index (Utf8State.Predecessor R1.1 3) = some w3 := by
    show assocFind RP2.2.index _ = _
    rw [hRP2b]
    show assocFind RP1.2.index _ = _
    rw [hRP1b, hR1b, hR1a]
    exact pers0 _ _ hw3
  obtain ⟨_, _, _, persp3, hitp3⟩ := goa_basic A4 (Utf8State.Predecessor R1.1 3)
  set RP3 := A4.get_or_allocate (Utf8State.Predecessor R1.1 3)
  obtain ⟨hRP3a, hRP3b⟩ := hitp3 w3 fp3
  have hfin : (dfab.add_state s d succ).2.num_states = RP3.2.num_states := rfl
  rw [hfin, hRP3b]
  show RP2.2.num_states ≤ _
  rw [hRP2b]
  show RP1.2.num_states ≤ _
  rw [hRP1b, hR1b]
  show R0.2.num_states ≤ _
  exact max0

theorem foldl_add_state_growth (l : List (Nat × Distance)) (succ : Nat) (B : DFABuilder)
    (hk : SuccKeysIn B succ) :
    (l.foldl (fun acc sd => (acc.add_state sd.1 sd.2 succ).2) B).num_states ≤
      B.num_states + l.length := by
  induction l generalizing B with
  | nil => exact Nat.le_add_right _ _
  | cons sd rest ih =>
    have g := add_state_growth B sd.1 succ sd.2 hk
    have ihr := ih _ (add_state_keys B sd.1 succ sd.2)
    refine Nat.le_trans ihr ?_
    rw [List.length_cons]
    omega

/-- C7: interning is idempotent — a second `get_or_allocate` with an equal
key returns the same numeric id and leaves the builder completely unchanged
(in particular it allocates no state) — and consequently, for any sequence
of further `add_state` calls sharing the same default successor, each call
allocates at most the one `Original` id for the state being registered: the
three synthesized predecessor states are reused, so the state count grows
by at most the number of calls, not by four per call. -/
theorem interning_idempotent_dedup (dfab : DFABuilder) (k : Utf8State) (succ s1 : Nat)
    (d1 : Distance) (l : List (Nat × Distance)) :
    ((dfab.get_or_allocate k).2.get_or_allocate k).1 = (dfab.get_or_allocate k).1 ∧
    ((dfab.get_or_allocate k).2.get_or_allocate k).2 = (dfab.get_or_allocate k).2 ∧
    (l.foldl (fun acc sd => (acc.add_state sd.1 sd.2 succ).2)
        (dfab.add_state s1 d1 succ).2).num_states ≤
      (dfab.add_state s1 d1 succ).2.num_states + l.length := by
  obtain ⟨findk, _, _, _, _⟩ := goa_basic dfab k
  obtain ⟨_, _, _, _, hit2⟩ := goa_basic (dfab.get_or_allocate k).2 k
  obtain ⟨ha, hb⟩ := hit2 _ findk
  exact ⟨ha, hb, foldl_add_state_growth l succ _ (add_state_keys dfab s1 succ d1)⟩

/-- C10: an `add_transition` with a single-byte character (scalar `< 0x80`)
changes exactly one transition-table entry — the owning state's row entry
for that byte, set to the interned destination id.  Every other entry of
every row (including the rest of the owning state's row), the recorded
distances, the interning map and the initial-state id are unchanged; the
only other possible effect is allocating the destination id when its key
was never interned, which appends one fresh all-zero row with sentinel
distance `AtLeast 255`. -/
theorem single_byte_transition_frame (dfab : DFABuilder) (sb : DFAStateBuilder)
    (chr t : Nat) (h : Inv dfab) (hchr : chr < 0x80) (hsb : sb.state_id < dfab.num_states) :
    ∃ dest,
      assocFind (dfab.add_transition sb chr t).index (Utf8State.Original t) = some dest ∧
      rowOf (dfab.add_transition sb chr t) sb.state_id chr = dest ∧
      (∀ j b, j < dfab.num_states → j ≠ sb.state_id ∨ b ≠ chr →
        rowOf (dfab.add_transition sb chr t) j b = rowOf dfab j b) ∧
      (dfab.add_transition sb chr t).initial_state = dfab.initial_state ∧
      ((dfab.add_transition sb chr t).num_states = dfab.num_states ∧
        (dfab.add_transition sb chr t).distances = dfab.distances ∧
        (dfab.add_transition sb chr t).index = dfab.index ∧
        dest < dfab.num_states ∨
       assocFind dfab.index (Utf8State.Original t) = none ∧
        dest = dfab.num_states ∧
        (dfab.add_transition sb chr t).num_states = dfab.num_states + 1 ∧
        (dfab.add_transition sb chr t).distances = dfab.distances ++ [Distance.AtLeast 255] ∧
        (dfab.add_transition sb chr t).index = (Utf8State.Original t, dest) :: dfab.index ∧
        (∀ b, rowOf (dfab.add_transition sb chr t) dest b = 0)) := by
  have hb : encodeUtf8 chr = [chr] := by
    unfold encodeUtf8
    rw [if_pos hchr]
  have he : dfab.add_transition sb chr t =
      add_transition_id (dfab.get_or_allocate (Utf8State.Original t)).2 sb.state_id chr
        (dfab.get_or_allocate (Utf8State.Original t)).1 := by
    unfold DFABuilder.add_transition
    rw [hb]
    rfl
  rw [he]
  cases hfind : assocFind dfab.index (Utf8State.Original t) with
  | some v =>
    have he1 : (dfab.get_or_allocate (Utf8State.Original t)).1 = v := by
      simp [DFABuilder.get_or_allocate, hfind]
    have he2 : (dfab.get_or_allocate (Utf8State.Original t)).2 = dfab := by
      simp [DFABuilder.get_or_allocate, hfind]
    rw [he1, he2]
    have hsl : sb.state_id < dfab.transitions.length := by
      rw [h.trans_len]
      exact hsb
    refine ⟨v, hfind, ?_, ?_, rfl, Or.inl ⟨rfl, rfl, rfl, h.index_lt _ _ hfind⟩⟩
    · rw [show rowOf (add_transition_id dfab sb.state_id chr v) sb.state_id =
        updRow (rowOf dfab sb.state_id) chr v from rowOf_set_self dfab sb.state_id _ hsl]
      unfold updRow
      rw [if_pos rfl]
    · intro j b hj hne
      by_cases hjs : j = sb.state_id
      · rcases hne with hne | hne
        · exact absurd hjs hne
        · rw [hjs, show rowOf (add_transition_id dfab sb.state_id chr v) sb.state_id =
            updRow (rowOf dfab sb.state_id) chr v from rowOf_set_self dfab sb.state_id _ hsl]
          unfold updRow
          rw [if_neg hne]
      · rw [show rowOf (add_transition_id dfab sb.state_id chr v) j = rowOf dfab j from
          rowOf_set_ne dfab sb.state_id j _ (fun hh => hjs hh.symm)]
  | none =>
    obtain ⟨ha1, ha2, ha3, ha4, ha5, ha6, ha7⟩ := allocate_spec dfab h
    have he1 : (dfab.get_or_allocate (Utf8State.Original t)).1 = (dfab.allocate).1 := by
      simp [DFABuilder.get_or_allocate, hfind]
    have he2 : (dfab.get_or_allocate (Utf8State.Original t)).2 =
        { (dfab.allocate).2 with
          index := (Utf8State.Original t, (dfab.allocate).1) :: (dfab.allocate).2.index } := by
      simp [DFABuilder.get_or_allocate, hfind]
    rw [he1, he2]
    set B : DFABuilder := { (dfab.allocate).2 with
      index := (Utf8State.Original t, (dfab.allocate).1) :: (dfab.allocate).2.index }
    have hBtrans : B.transitions = dfab.transitions ++ [fun _ => 0] := ha5
    have hBlen : B.transitions.length = dfab.num_states + 1 := by
      rw [hBtrans, List.length_append, h.trans_len]
      rfl
    have hsl : sb.state_id < B.transitions.length := by
      rw [hBlen]
      exact Nat.lt_succ_of_lt hsb
    have hrowB : ∀ j, j < dfab.num_states → rowOf B j = rowOf dfab j := by
      intro j hj
      show B.transitions.getD j (fun _ => 0) = _
      rw [hBtrans, getD_append_left _ _ _ _ (by rw [h.trans_len]; exact hj)]
      rfl
    have hdest : rowOf B (dfab.allocate).1 = (fun _ => 0) := by
      show B.transitions.getD (dfab.allocate).1 (fun _ => 0) = _
      rw [hBtrans, ha1, ← h.trans_len, getD_append_self]
    refine ⟨(dfab.allocate).1, ?_, ?_, ?_, ha6, Or.inr ⟨rfl, ha1, ha2, ha4, ?_, ?_⟩⟩
    · exact assocFind_prepend_self _ _ _
    · rw [show rowOf (add_transition_id B sb.state_id chr (dfab.allocate).1) sb.state_id =
        updRow (rowOf B sb.state_id) chr (dfab.allocate).1 from
        rowOf_set_self B sb.state_id _ hsl]
      unfold updRow
      rw [if_pos rfl]
    · intro j b hj hne
      by_cases hjs : j = sb.state_id
      · rcases hne with hne | hne
        · exact absurd hjs hne
        · rw [hjs, show rowOf (add_transition_id B sb.state_id chr (dfab.allocate).1)
            sb.state_id = updRow (rowOf B sb.state_id) chr (dfab.allocate).1 from
            rowOf_set_self B sb.state_id _ hsl]
          unfold updRow
          rw [if_neg hne, show rowOf B sb.state_id = rowOf dfab sb.state_id from hrowB _ hsb]
      · rw [show rowOf (add_transition_id B sb.state_id chr (dfab.allocate).1) j = rowOf B j
          from rowOf_set_ne B sb.state_id j _ (fun hh => hjs hh.symm), hrowB _ hj]
    · show (Utf8State.Original t, (dfab.allocate).1) :: (dfab.allocate).2.index = _
      rw [ha3]
    · intro b
      have hne : sb.state_id ≠ (dfab.allocate).1 := by
        rw [ha1]
        exact Nat.ne_of_lt hsb
      rw [show rowOf (add_transition_id B sb.state_id chr (dfab.allocate).1)
        (dfab.allocate).1 = rowOf B (dfab.allocate).1 from
        rowOf_set_ne B sb.state_id (dfab.allocate).1 _ hne, hdest]

/-- The builder and handle used to witness C10. -/
def c10builder : DFABuilder := runOps [BuilderOp.addState 0 (Distance.Exact 0) 1 []]

/-- The `add_state` handle matching `c10builder`. -/
def c10handle : DFAStateBuilder :=
  ((DFABuilder.with_capacity 1).add_state 0 (Distance.Exact 0) 1).1

/-- Witness for C10: adding the single-byte character `a` (0x61) towards the
never-interned destination 9 on the state registered in `c10builder`. -/
theorem single_byte_transition_frame_witness :
    ∃ dest,
      assocFind (c10builder.add_transition c10handle 97 9).index (Utf8State.Original 9) =
        some dest ∧
      rowOf (c10builder.add_transition c10handle 97 9) c10handle.state_id 97 = dest ∧
      (∀ j b, j < c10builder.num_states → j ≠ c10handle.state_id ∨ b ≠ 97 →
        rowOf (c10builder.add_transition c10handle 97 9) j b = rowOf c10builder j b) ∧
      (c10builder.add_transition c10handle 97 9).initial_state = c10builder.initial_state ∧
      ((c10builder.add_transition c10handle 97 9).num_states = c10builder.num_states ∧
        (c10builder.add_transition c10handle 97 9).distances = c10builder.distances ∧
        (c10builder.add_transition c10handle 97 9).index = c10builder.index ∧
        dest < c10builder.num_states ∨
       assocFind c10builder.index (Utf8State.Original 9) = none ∧
        dest = c10builder.num_states ∧
        (c10builder.add_transition c10handle 97 9).num_states = c10builder.num_states + 1 ∧
        (c10builder.add_transition c10handle 97 9).distances =
          c10builder.distances ++ [Distance.AtLeast 255] ∧
        (c10builder.add_transition c10handle 97 9).index =
          (Utf8State.Original 9, dest) :: c10builder.index ∧
        (∀ b, rowOf (c10builder.add_transition c10handle 97 9) dest b = 0)) :=
  single_byte_transition_frame c10builder c10handle 97 9
    (inv_runOps [BuilderOp.addState 0 (Distance.Exact 0) 1 []]) (by decide) (by decide)

theorem updRow_self (r : Row) (b v : Nat) : updRow r b v b = v := by
  unfold updRow
  rw [if_pos rfl]

/-! ### Single-step reduction lemmas for the `add_transition` walk -/

theorem go_step_hit (dfab : DFABuilder) (defaults : List Nat) (t fid b b2 : Nat)
    (rest2 : List Nat)
    (hhit : rowOf dfab fid b = defaults.getD (b2 :: rest2).length 0) :
    addTransitionGo dfab defaults t fid (b :: b2 :: rest2) =
      addTransitionGo
        (add_transition_id
          { (dfab.allocate).2 with transitions :=
              ((dfab.allocate).2.transitions.set (dfab.allocate).1
                (fun _ => defaults.getD (b2 :: rest2).length 0)) }
          fid b (dfab.allocate).1)
        defaults t (dfab.allocate).1 (b2 :: rest2) := by
  show (let ri : Nat × DFABuilder :=
      if rowOf dfab fid b = defaults.getD (b2 :: rest2).length 0 then
        ((dfab.allocate).1,
          { (dfab.allocate).2 with transitions :=
              ((dfab.allocate).2.transitions.set (dfab.allocate).1
                (fun _ => defaults.getD (b2 :: rest2).length 0)) })
      else (rowOf dfab fid b, dfab)
    addTransitionGo (add_transition_id ri.2 fid b ri.1) defaults t ri.1 (b2 :: rest2)) = _
  rw [if_pos hhit]

theorem go_step_miss (dfab : DFABuilder) (defaults : List Nat) (t fid b b2 : Nat)
    (rest2 : List Nat)
    (hmiss : ¬ rowOf dfab fid b = defaults.getD (b2 :: rest2).length 0) :
    addTransitionGo dfab defaults t fid (b :: b2 :: rest2) =
      addTransitionGo (add_transition_id dfab fid b (rowOf dfab fid b)) defaults t
        (rowOf dfab fid b) (b2 :: rest2) := by
  show (let ri : Nat × DFABuilder :=
      if rowOf dfab fid b = defaults.getD (b2 :: rest2).length 0 then
        ((dfab.allocate).1,
          { (dfab.allocate).2 with transitions :=
              ((dfab.allocate).2.transitions.set (dfab.allocate).1
                (fun _ => defaults.getD (b2 :: rest2).length 0)) })
      else (rowOf dfab fid b, dfab)
    addTransitionGo (add_transition_id ri.2 fid b ri.1) defaults t ri.1 (b2 :: rest2)) = _
  rw [if_neg hmiss]

theorem go_last (dfab : DFABuilder) (defaults : List Nat) (t fid b tid : Nat)
    (htid : assocFind dfab.index (Utf8State.Original t) = some tid) :
    addTransitionGo dfab defaults t fid [b] = add_transition_id dfab fid b tid := by
  have he1 : (dfab.get_or_allocate (Utf8State.Original t)).1 = tid := by
    simp [DFABuilder.get_or_allocate, htid]
  have he2 : (dfab.get_or_allocate (Utf8State.Original t)).2 = dfab := by
    simp [DFABuilder.get_or_allocate, htid]
  show add_transition_id (dfab.get_or_allocate (Utf8State.Original t)).2 fid b
      (dfab.get_or_allocate (Utf8State.Original t)).1 = _
  rw [he1, he2]

theorem set_initial_hit (dfab : DFABuilder) (i v : Nat)
    (h : assocFind dfab.index (Utf8State.Original i) = some v) :
    dfab.set_initial_state i = { dfab with initial_state := v } := by
  have he1 : (dfab.get_or_allocate (Utf8State.Original i)).1 = v := by
    simp [DFABuilder.get_or_allocate, h]
  have he2 : (dfab.get_or_allocate (Utf8State.Original i)).2 = dfab := by
    simp [DFABuilder.get_or_allocate, h]
  show { (dfab.get_or_allocate (Utf8State.Original i)).2 with
    initial_state := (dfab.get_or_allocate (Utf8State.Original i)).1 } = _
  rw [he1, he2]

theorem getD_eq_get (l : List α) (i : Nat) (d : α) (h : i < l.length) :
    l.getD i d = l.get ⟨i, h⟩ := by
  induction l generalizing i with
  | nil => simp at h
  | cons a tl ih =>
    cases i with
    | zero => rfl
    | succ n => exact ih n (by simpa using h)

theorem build_transition_eq (B : DFABuilder) (s b : Nat) (hs : s < B.transitions.length) :
    (B.build).transition s b = some (rowOf B s b) := by
  show (B.transitions[s]?).map (fun r => r b) = _
  rw [List.getElem?_eq_getElem hs]
  show some (B.transitions.get ⟨s, hs⟩ b) = _
  rw [show rowOf B s = B.transitions.get ⟨s, hs⟩ from getD_eq_get B.transitions s _ hs]

theorem evalFrom_cons (A : DFA) (s b s2 : Nat) (rest : List Nat)
    (ht : A.transition s b = some s2) :
    A.evalFrom s (b :: rest) = A.evalFrom s2 rest := by
  show (match A.transition s b with
    | some x => A.evalFrom x rest
    | none => none) = _
  rw [ht]

theorem add_transition_id_length (B : DFABuilder) (f b v : Nat) :
    (add_transition_id B f b v).transitions.length = B.transitions.length := by
  show (B.transitions.set f _).length = _
  rw [List.length_set]

theorem setRow_length (B : DFABuilder) (i : Nat) (r : Row) :
    ({ B with transitions := B.transitions.set i r } : DFABuilder).transitions.length =
      B.transitions.length := by
  show (B.transitions.set i r).length = _
  rw [List.length_set]

/-- The builder session for claim C5: destinations 2 (distance Exact 2) and
3 (distance Exact 3) and the default-successor state 1 (distance Exact 1)
are registered first, then state 0 (distance Exact 0, default successor 1)
with two explicit transitions installed through its handle: `い` U+3044
(bytes `[227, 129, 132]`) to destination 2, then `や` U+3084 (bytes
`[227, 130, 132]`) to destination 3 -- a distinct character of the same
encoded length sharing the byte prefix `[227]`.  The initial state is 0. -/
def c5ops : List BuilderOp :=
  [BuilderOp.addState 2 (Distance.Exact 2) 1 [],
   BuilderOp.addState 3 (Distance.Exact 3) 1 [],
   BuilderOp.addState 1 (Distance.Exact 1) 1 [],
   BuilderOp.addState 0 (Distance.Exact 0) 1 [(0x3044, 2), (0x3084, 3)],
   BuilderOp.setInitial 0]

/-- The same session with only the first explicit transition installed. -/
def c5opsFirstOnly : List BuilderOp :=
  [BuilderOp.addState 2 (Distance.Exact 2) 1 [],
   BuilderOp.addState 3 (Distance.Exact 3) 1 [],
   BuilderOp.addState 1 (Distance.Exact 1) 1 [],
   BuilderOp.addState 0 (Distance.Exact 0) 1 [(0x3044, 2)],
   BuilderOp.setInitial 0]

/-- C5 (code bug): the explicit-transition override is not honoured at the
claim's scope.  In `c5ops`, state 0 is registered via `add_state` and
`add_transition` installs the multi-byte character `U+3044` to destination
state 2 (interned id 0, recorded distance `Exact 2`); the input consisting
of the empty prefix (which trivially drives the automaton to state 0, the
initial state) followed by exactly the UTF-8 encoding of `U+3044` must
therefore evaluate to `Exact 2`.  With only that transition installed
(`c5opsFirstOnly`) it does.  But after the second `add_transition` on the
same handle -- the same-length character `U+3084`, sharing the byte prefix
`[227]` and the final byte 132, to destination 3 -- evaluation of `U+3044`
returns `Exact 3`, the sibling's destination: the final byte was written
into the shared interned `remaining = 2` predecessor row, a consequence of
`add_transition` filling fresh intermediate states from
`default_successor[remaining_num_bytes]` instead of
`default_successor[remaining_num_bytes - 1]`. -/
theorem explicit_char_rerouted_to_sibling_destination :
    assocFind (runOps c5ops).index (Utf8State.Original 2) = some 0 ∧
    ((runOps c5ops).build).distance 0 = some (Distance.Exact 2) ∧
    ((runOps c5opsFirstOnly).build).eval (encodeUtf8 0x3044) = some (Distance.Exact 2) ∧
    ((runOps c5ops).build).eval (encodeUtf8 0x3044) = some (Distance.Exact 3) ∧
    ((runOps c5ops).build).eval (encodeUtf8 0x3044) ≠ some (Distance.Exact 2) := by
  refine ⟨by decide, by decide, by decide, by decide, by decide⟩

/-- C2: the concrete parity automaton of the repository test: two states
{0,1}, state 0 with distance Exact(1) and default successor 1, state 1 with
distance Exact(0) and default successor 0, initial state 1.  `eval` counts
each 1-, 2- and 3-byte scalar as exactly one transition: "abcdef" ↦ 0,
"a" ↦ 1, "aあ" ↦ 0, "❤" ↦ 1, "❤❤" ↦ 0, "❤a" ↦ 0, "あ" ↦ 1, "ああ" ↦ 0
(`あ` = U+3042, 3 bytes; `❤` = U+2764, 3 bytes). -/
theorem test_utf8_dfa_builder_eval :
    parityDFA.eval [97, 98, 99, 100, 101, 102] = some (Distance.Exact 0) ∧
    parityDFA.eval [97] = some (Distance.Exact 1) ∧
    parityDFA.eval ([97] ++ encodeUtf8 0x3042) = some (Distance.Exact 0) ∧
    parityDFA.eval (encodeUtf8 0x2764) = some (Distance.Exact 1) ∧
    parityDFA.eval (encodeUtf8 0x2764 ++ encodeUtf8 0x2764) = some (Distance.Exact 0) ∧
    parityDFA.eval (encodeUtf8 0x2764 ++ [97]) = some (Distance.Exact 0) ∧
    parityDFA.eval (encodeUtf8 0x3042) = some (Distance.Exact 1) ∧
    parityDFA.eval (encodeUtf8 0x3042 ++ encodeUtf8 0x3042) = some (Distance.Exact 0) := by
  refine ⟨by decide, by decide, by decide, by decide, by decide, by decide, by decide, by decide⟩

/-- The builder session for claims C1/C5-style scenarios: state 1 (distance
Exact(1), default successor 1) registered first, then state 0 (distance
Exact(0), default successor 1) with one explicit transition for `あ` U+3042
(bytes `[227, 129, 130]`) to destination 0; initial state 0. -/
def c1ops : List BuilderOp :=
  [BuilderOp.addState 1 (Distance.Exact 1) 1 [],
   BuilderOp.addState 0 (Distance.Exact 0) 1 [(0x3042, 0)],
   BuilderOp.setInitial 0]

/-- The same session with no explicit transition. -/
def c1opsNoExplicit : List BuilderOp :=
  [BuilderOp.addState 1 (Distance.Exact 1) 1 [],
   BuilderOp.addState 0 (Distance.Exact 0) 1 [],
   BuilderOp.setInitial 0]

/-- C1 (code bug): after the explicit transition for `あ` (U+3042,
`[227, 129, 130]`), the same-length character `い` (U+3044,
`[227, 129, 132]`) — which shares the byte prefix `[227, 129]` and was not
added explicitly — no longer falls through to the default successor.  It
evaluates to the sentinel `AtLeast 255` (it ends on the `remaining = 1`
predecessor state), whereas without the explicit transition it reaches the
default successor, distance `Exact 1`.  Cause: `add_transition` fills a
fresh intermediate state's row with `default_successor[remaining_num_bytes]`
instead of the one-step-closer `default_successor[remaining_num_bytes - 1]`.
The explicit character itself still reaches its destination. -/
theorem divergent_byte_misses_default_chain :
    ((runOps c1ops).build).eval (encodeUtf8 0x3044) = some (Distance.AtLeast 255) ∧
    ((runOps c1opsNoExplicit).build).eval (encodeUtf8 0x3044) = some (Distance.Exact 1) ∧
    ((runOps c1ops).build).eval (encodeUtf8 0x3042) = some (Distance.Exact 0) := by
  refine ⟨by decide, by decide, by decide⟩

/-- The builder session for claim C6: destinations 2 (Exact 2) and
3 (Exact 3) and the successor state 1 registered first, then state 0 with
two explicit transitions: `あ` U+3042 = `[227, 129, 130]` to state 2 and
`も` U+3082 = `[227, 130, 130]` to state 3.  The two characters are distinct,
both 3 bytes, and share the proper byte prefix `[227]`. -/
def c6ops : List BuilderOp :=
  [BuilderOp.addState 2 (Distance.Exact 2) 1 [],
   BuilderOp.addState 3 (Distance.Exact 3) 1 [],
   BuilderOp.addState 1 (Distance.Exact 1) 1 [],
   BuilderOp.addState 0 (Distance.Exact 0) 1 [(0x3042, 2), (0x3082, 3)],
   BuilderOp.setInitial 0]

/-- C6 (code bug): with explicit transitions `あ` (U+3042) ↦ state 2 and
`も` (U+3082) ↦ state 3 installed on state 0 — two distinct 3-byte
characters sharing the proper byte prefix `[227]` — evaluating `あ` returns
`Exact 3`, the destination of `も`, not its own destination's `Exact 2`:
the second `add_transition` corrupted the first one's target (both final
bytes are written into the shared interned `remaining = 2` predecessor's
row at the same byte 130). -/
theorem prefix_sharing_corrupts_sibling_target :
    ((runOps c6ops).build).eval (encodeUtf8 0x3042) = some (Distance.Exact 3) ∧
    ((runOps c6ops).build).eval (encodeUtf8 0x3082) = some (Distance.Exact 3) := by
  refine ⟨by decide, by decide⟩

/-- The builder session for claim C9: state 0 is registered with default
successor 7 and an explicit single-byte transition `a` ↦ state 9; the
initial state is set to 3.  The ids 7, 9 and 3 are referenced but never
registered through `add_state`. -/
def c9ops : List BuilderOp :=
  [BuilderOp.addState 0 (Distance.Exact 0) 7 [(97, 9)],
   BuilderOp.setInitial 3]

/-!
### A structural row invariant towards claim C9

The general form of claim C9 quantifies over all builder sessions and all
referenced-but-unregistered state ids.  Its row part needs an invariant
ruling out that any builder write ever targets the row of such a state.
The only writes whose target is read back out of a transition row are the
intermediate hops of the `add_transition` walk, so the invariant below
classifies what that walk can read: entries of a registered state's row
at multi-byte lead positions are either the matching predecessor of an
interned chain, or a never-interned intermediate state whose
continuation-byte entries are classified in turn.
-/

/-- `x` is not bound in the interning map. -/
def NotInterned (B : DFABuilder) (x : Nat) : Prop :=
  ∀ k, assocFind B.index k ≠ some x

/-- `x` is the interned id of some `Original` key. -/
def IsOrigId (B : DFABuilder) (x : Nat) : Prop :=
  ∃ u, assocFind B.index (Utf8State.Original u) = some x

/-- Classification of a registered state's row at the three multi-byte
lead-byte classes, relative to a predecessor chain `p1, p2, p3`: each
entry is either the matching predecessor, or a never-interned
intermediate state whose row holds, at every continuation-byte position,
the class's predecessor (2-byte intermediates may also hold interned
`Original` destinations there, written by final bytes). -/
def LocalE (B : DFABuilder) (st p1 p2 p3 : Nat) : Prop :=
  (∀ b, 192 ≤ b → b < 224 → rowOf B st b = p1 ∨
    (NotInterned B (rowOf B st b) ∧ ∀ b2, 128 ≤ b2 → b2 < 192 →
      (rowOf B (rowOf B st b) b2 = p1 ∨ IsOrigId B (rowOf B (rowOf B st b) b2)))) ∧
  (∀ b, 224 ≤ b → b < 240 → rowOf B st b = p2 ∨
    (NotInterned B (rowOf B st b) ∧ ∀ b2, 128 ≤ b2 → b2 < 192 →
      rowOf B (rowOf B st b) b2 = p2)) ∧
  (∀ b, 240 ≤ b → rowOf B st b = p3 ∨
    (NotInterned B (rowOf B st b) ∧ ∀ b2, 128 ≤ b2 → b2 < 192 →
      rowOf B (rowOf B st b) b2 = p3))

/-- The structural invariant: every `remaining = 3` predecessor row still
chains to the matching `remaining = 2` predecessor, and every registered
`Original` state's row is either still all-zero (never written) or
classified by `LocalE` against an interned predecessor chain. -/
structure Sinv (B : DFABuilder) : Prop where
  p3row : ∀ cid p2 p3,
    assocFind B.index (Utf8State.Predecessor cid 2) = some p2 →
    assocFind B.index (Utf8State.Predecessor cid 3) = some p3 →
    ∀ b, rowOf B p3 b = p2
  strow : ∀ u st, assocFind B.index (Utf8State.Original u) = some st →
    (∀ b, rowOf B st b = 0) ∨
    ∃ cid p1 p2 p3,
      assocFind B.index (Utf8State.Predecessor cid 1) = some p1 ∧
      assocFind B.index (Utf8State.Predecessor cid 2) = some p2 ∧
      assocFind B.index (Utf8State.Predecessor cid 3) = some p3 ∧
      LocalE B st p1 p2 p3

/-- The payload of claim C9, as a builder-state predicate: every interned
id for `Original s` still has the sentinel distance and an all-zero row. -/
def VSafe (s : Nat) (B : DFABuilder) : Prop :=
  ∀ v, assocFind B.index (Utf8State.Original s) = some v →
    B.distances.getD v (Distance.AtLeast 255) = Distance.AtLeast 255 ∧
    ∀ b, rowOf B v b = 0

theorem sinv_with_capacity (c : Nat) : Sinv (DFABuilder.with_capacity c) := by
  constructor
  · intro cid p2 p3 h2
    exact absurd h2 (by intro hh; exact Option.noConfusion hh)
  · intro u st h
    exact absurd h (by intro hh; exact Option.noConfusion hh)

theorem vsafe_with_capacity (s c : Nat) : VSafe s (DFABuilder.with_capacity c) := by
  intro v hv
  exact absurd hv (by intro hh; exact Option.noConfusion hh)

theorem ne_of_keys (B : DFABuilder) (hI : Inv B) (k1 k2 : Utf8State) (v1 v2 : Nat)
    (h1 : assocFind B.index k1 = some v1) (h2 : assocFind B.index k2 = some v2)
    (hk : k1 ≠ k2) : v1 ≠ v2 := by
  intro he
  have h1x : assocFind B.index k1 = some v2 := by rw [← he]; exact h1
  exact hk (hI.index_inj k1 k2 v2 h1x h2)

theorem set_getD_self (l : List α) (f : Nat) (d : α) (h : f < l.length) :
    l.set f (l.getD f d) = l := by
  induction l generalizing f with
  | nil => simp at h
  | cons a t ih =>
    cases f with
    | zero => rfl
    | succ n =>
      show a :: t.set n (t.getD n d) = a :: t
      rw [ih n (by simpa using h)]

/-- Writing back the value already present is the identity on the builder:
the reuse branch of the `add_transition` walk does not change the table. -/
theorem writeback_id (B : DFABuilder) (f b : Nat) (hf : f < B.transitions.length) :
    add_transition_id B f b (rowOf B f b) = B := by
  show { B with transitions :=
    (B.transitions.set f (updRow (rowOf B f) b (rowOf B f b))) } = B
  have h1 : updRow (rowOf B f) b (rowOf B f b) = rowOf B f := by
    funext x
    unfold updRow
    by_cases hx : x = b
    · rw [if_pos hx, hx]
    · rw [if_neg hx]
  rw [h1]
  show { B with transitions :=
    (B.transitions.set f (B.transitions.getD f (fun _ => 0))) } = B
  rw [set_getD_self B.transitions f _ hf]

theorem rowOf_ati_ne (B : DFABuilder) (f b v j : Nat) (hj : j ≠ f) :
    rowOf (add_transition_id B f b v) j = rowOf B j := by
  show rowOf { B with transitions :=
    (B.transitions.set f (updRow (rowOf B f) b v)) } j = rowOf B j
  exact rowOf_set_ne B f j _ (fun h => hj h.symm)

theorem rowOf_ati_self (B : DFABuilder) (f b v : Nat) (hf : f < B.transitions.length) :
    rowOf (add_transition_id B f b v) f = updRow (rowOf B f) b v := by
  show rowOf { B with transitions :=
    (B.transitions.set f (updRow (rowOf B f) b v)) } f = updRow (rowOf B f) b v
  exact rowOf_set_self B f _ hf

theorem updRow_ne (r : Row) (b v x : Nat) (hx : x ≠ b) : updRow r b v x = r x := by
  unfold updRow
  rw [if_neg hx]

/-- Every binding after `get_or_allocate` is an old binding or the fresh
binding of the requested key. -/
theorem goa_bindings (B : DFABuilder) (k : Utf8State) :
    ∀ k2 v2, assocFind (B.get_or_allocate k).2.index k2 = some v2 →
      assocFind B.index k2 = some v2 ∨
      (k2 = k ∧ v2 = B.num_states ∧ assocFind B.index k = none) := by
  intro k2 v2 h
  cases hfind : assocFind B.index k with
  | some w =>
    have he : (B.get_or_allocate k).2 = B := by
      simp [DFABuilder.get_or_allocate, hfind]
    rw [he] at h
    exact Or.inl h
  | none =>
    have he : (B.get_or_allocate k).2 =
        { (B.allocate).2 with index := (k, (B.allocate).1) :: (B.allocate).2.index } := by
      simp [DFABuilder.get_or_allocate, hfind]
    rw [he] at h
    unfold assocFind at h
    by_cases hk : k = k2
    · rw [if_pos hk] at h
      exact Or.inr ⟨hk.symm, (Option.some_inj.mp h).symm, rfl⟩
    · rw [if_neg hk] at h
      exact Or.inl h

theorem notInterned_fresh (B : DFABuilder) (h : Inv B) : NotInterned B B.num_states := by
  intro k hk
  exact absurd (h.index_lt k _ hk) (Nat.lt_irrefl _)

theorem notInterned_goa (B : DFABuilder) (k : Utf8State) (x : Nat)
    (hx : NotInterned B x) (hlt : x < B.num_states) :
    NotInterned (B.get_or_allocate k).2 x := by
  intro k2 hk2
  rcases goa_bindings B k k2 x hk2 with h | ⟨_, h2, _⟩
  · exact hx k2 h
  · rw [h2] at hlt
    exact absurd hlt (Nat.lt_irrefl _)

theorem isOrig_goa (B : DFABuilder) (k : Utf8State) (x : Nat) (hx : IsOrigId B x) :
    IsOrigId (B.get_or_allocate k).2 x := by
  obtain ⟨u, hu⟩ := hx
  obtain ⟨_, _, _, pers, _⟩ := goa_basic B k
  exact ⟨u, pers _ _ hu⟩

theorem notInterned_ne_goa_id (B : DFABuilder) (k : Utf8State) (x : Nat)
    (hx : NotInterned B x) (hlt : x < B.num_states) :
    x ≠ (B.get_or_allocate k).1 := by
  cases hfind : assocFind B.index k with
  | some w =>
    have he : (B.get_or_allocate k).1 = w := by
      simp [DFABuilder.get_or_allocate, hfind]
    rw [he]
    intro hxw
    exact hx k (by rw [hxw]; exact hfind)
  | none =>
    have he : (B.get_or_allocate k).1 = B.num_states := by
      simp [DFABuilder.get_or_allocate, hfind]
      rfl
    rw [he]
    exact Nat.ne_of_lt hlt

theorem vsafe_goa (B : DFABuilder) (k : Utf8State) (s : Nat) (h : Inv B)
    (hV : VSafe s B) : VSafe s (B.get_or_allocate k).2 := by
  intro v hv
  obtain ⟨_, _, _, _, _, _, rows, dist, _⟩ := goa_spec B k h
  rcases goa_bindings B k _ v hv with hold | ⟨hk, hv2, hmiss⟩
  · obtain ⟨hd, hr⟩ := hV v hold
    have hvlt : v < B.num_states := h.index_lt _ _ hold
    refine ⟨?_, ?_⟩
    · rw [dist v _ hvlt]
      exact hd
    · intro b
      rw [rows v hvlt b]
      exact hr b
  · obtain ⟨ha1, ha2, ha3, ha4, ha5, ha6, ha7⟩ := allocate_spec B h
    have he : (B.get_or_allocate k).2 =
        { (B.allocate).2 with index := (k, (B.allocate).1) :: (B.allocate).2.index } := by
      simp [DFABuilder.get_or_allocate, hmiss]
    refine ⟨?_, ?_⟩
    · show (B.get_or_allocate k).2.distances.getD v (Distance.AtLeast 255) = _
      rw [he]
      show (B.allocate).2.distances.getD v (Distance.AtLeast 255) = _
      rw [ha4, hv2, ← h.dist_len, getD_append_self]
    · intro b
      show rowOf (B.get_or_allocate k).2 v b = 0
      rw [he]
      show ((B.allocate).2.transitions).getD v (fun _ => 0) b = 0
      rw [ha5, hv2, ← h.trans_len, getD_append_self]

theorem localE_goa (B : DFABuilder) (k : Utf8State) (st p1 p2 p3 : Nat) (h : Inv B)
    (hst : st < B.num_states) (hL : LocalE B st p1 p2 p3) :
    LocalE (B.get_or_allocate k).2 st p1 p2 p3 := by
  obtain ⟨_, _, _, _, _, _, rows, _, _⟩ := goa_spec B k h
  obtain ⟨hL1, hL2, hL3⟩ := hL
  have he : ∀ b, rowOf (B.get_or_allocate k).2 st b = rowOf B st b := fun b => rows st hst b
  refine ⟨?_, ?_, ?_⟩
  · intro b hb hb'
    have helt : rowOf B st b < B.num_states := rowOf_lt B h st hst b
    rcases hL1 b hb hb' with h1 | ⟨hNI, hsub⟩
    · exact Or.inl (by rw [he]; exact h1)
    · refine Or.inr ⟨by rw [he]; exact notInterned_goa B k _ hNI helt, ?_⟩
      intro b2 hb2 hb2'
      rw [he, rows _ helt b2]
      rcases hsub b2 hb2 hb2' with h2 | h2
      · exact Or.inl h2
      · exact Or.inr (isOrig_goa B k _ h2)
  · intro b hb hb'
    have helt : rowOf B st b < B.num_states := rowOf_lt B h st hst b
    rcases hL2 b hb hb' with h1 | ⟨hNI, hsub⟩
    · exact Or.inl (by rw [he]; exact h1)
    · refine Or.inr ⟨by rw [he]; exact notInterned_goa B k _ hNI helt, ?_⟩
      intro b2 hb2 hb2'
      rw [he, rows _ helt b2]
      exact hsub b2 hb2 hb2'
  · intro b hb
    have helt : rowOf B st b < B.num_states := rowOf_lt B h st hst b
    rcases hL3 b hb with h1 | ⟨hNI, hsub⟩
    · exact Or.inl (by rw [he]; exact h1)
    · refine Or.inr ⟨by rw [he]; exact notInterned_goa B k _ hNI helt, ?_⟩
      intro b2 hb2 hb2'
      rw [he, rows _ helt b2]
      exact hsub b2 hb2 hb2'

theorem sinv_goa_orig (B : DFABuilder) (t : Nat) (h : Inv B) (hS : Sinv B) :
    Sinv (B.get_or_allocate (Utf8State.Original t)).2 := by
  obtain ⟨_, _, _, _, _, pers, rows, _, _⟩ := goa_spec B (Utf8State.Original t) h
  constructor
  · intro cid p2 p3 h2 h3 b
    rcases goa_bindings B _ _ _ h2 with h2' | ⟨hk, _, _⟩
    · rcases goa_bindings B _ _ _ h3 with h3' | ⟨hk3, _, _⟩
      · have hp3lt : p3 < B.num_states := h.index_lt _ _ h3'
        rw [rows p3 hp3lt b]
        exact hS.p3row cid p2 p3 h2' h3' b
      · exact absurd hk3 (by intro hh; exact Utf8State.noConfusion hh)
    · exact absurd hk (by intro hh; exact Utf8State.noConfusion hh)
  · intro u st hst
    rcases goa_bindings B _ _ _ hst with hold | ⟨_, hfresh, hmiss⟩
    · have hstlt : st < B.num_states := h.index_lt _ _ hold
      rcases hS.strow u st hold with hz | ⟨cid, p1, p2, p3, f1, f2, f3, hL⟩
      · refine Or.inl ?_
        intro b
        rw [rows st hstlt b]
        exact hz b
      · exact Or.inr ⟨cid, p1, p2, p3, pers _ _ f1, pers _ _ f2, pers _ _ f3,
          localE_goa B _ st p1 p2 p3 h hstlt hL⟩
    · refine Or.inl ?_
      intro b
      obtain ⟨ha1, ha2, ha3, ha4, ha5, ha6, ha7⟩ := allocate_spec B h
      have he : (B.get_or_allocate (Utf8State.Original t)).2 =
          { (B.allocate).2 with index := (Utf8State.Original t, (B.allocate).1) ::
            (B.allocate).2.index } := by
        simp [DFABuilder.get_or_allocate, hmiss]
      show rowOf (B.get_or_allocate (Utf8State.Original t)).2 st b = 0
      rw [he]
      show ((B.allocate).2.transitions).getD st (fun _ => 0) b = 0
      rw [ha5, hfresh, ← h.trans_len, getD_append_self]

theorem vsafe_ati (B : DFABuilder) (x b v s : Nat) (hV : VSafe s B)
    (hx : ∀ w, assocFind B.index (Utf8State.Original s) = some w → w ≠ x) :
    VSafe s (add_transition_id B x b v) := by
  intro w hw
  obtain ⟨hd, hr⟩ := hV w hw
  refine ⟨hd, ?_⟩
  intro bb
  rw [show rowOf (add_transition_id B x b v) w = rowOf B w from
    rowOf_ati_ne B x b v w (hx w hw)]
  exact hr bb

/-- `LocalE` is untouched by a write into the row of an interned state
other than the classified one (interned entries never occur as
intermediate entries). -/
theorem localE_ati_untouched (B : DFABuilder) (x b v st p1 p2 p3 : Nat)
    (hL : LocalE B st p1 p2 p3) (hst : st ≠ x)
    (hxI : ∃ k, assocFind B.index k = some x) :
    LocalE (add_transition_id B x b v) st p1 p2 p3 := by
  obtain ⟨kx, hkx⟩ := hxI
  obtain ⟨hL1, hL2, hL3⟩ := hL
  have he : ∀ bb, rowOf (add_transition_id B x b v) st bb = rowOf B st bb := by
    intro bb
    rw [rowOf_ati_ne B x b v st hst]
  refine ⟨?_, ?_, ?_⟩
  · intro bb hb hb'
    rcases hL1 bb hb hb' with h1 | ⟨hNI, hsub⟩
    · exact Or.inl (by rw [he]; exact h1)
    · have hex : rowOf B st bb ≠ x := fun hh => hNI kx (by rw [hkx, hh])
      refine Or.inr ⟨by rw [he]; exact hNI, ?_⟩
      intro b2 hb2 hb2'
      rw [he, rowOf_ati_ne B x b v _ hex]
      exact hsub b2 hb2 hb2'
  · intro bb hb hb'
    rcases hL2 bb hb hb' with h1 | ⟨hNI, hsub⟩
    · exact Or.inl (by rw [he]; exact h1)
    · have hex : rowOf B st bb ≠ x := fun hh => hNI kx (by rw [hkx, hh])
      refine Or.inr ⟨by rw [he]; exact hNI, ?_⟩
      intro b2 hb2 hb2'
      rw [he, rowOf_ati_ne B x b v _ hex]
      exact hsub b2 hb2 hb2'
  · intro bb hb
    rcases hL3 bb hb with h1 | ⟨hNI, hsub⟩
    · exact Or.inl (by rw [he]; exact h1)
    · have hex : rowOf B st bb ≠ x := fun hh => hNI kx (by rw [hkx, hh])
      refine Or.inr ⟨by rw [he]; exact hNI, ?_⟩
      intro b2 hb2 hb2'
      rw [he, rowOf_ati_ne B x b v _ hex]
      exact hsub b2 hb2 hb2'

/-- `LocalE` preservation under a write of an interned `Original` id into
the row of a never-interned intermediate state at a continuation-byte
position, provided that position previously held a `remaining = 1`
predecessor or an `Original` id: 2-byte-class entries absorb the new
`Original` value, and the constant-row classes cannot be the written row. -/
theorem localE_write_notint_cont (B : DFABuilder) (x b destid st cidq q1 q2 q3 : Nat)
    (hI : Inv B) (hx : NotInterned B x) (hxlt : x < B.num_states)
    (hb : 128 ≤ b) (hb' : b < 192)
    (hfact : (∃ cid1 pp1, assocFind B.index (Utf8State.Predecessor cid1 1) = some pp1 ∧
        rowOf B x b = pp1) ∨ IsOrigId B (rowOf B x b))
    (hdest : IsOrigId B destid) (hstx : st ≠ x)
    (hq2 : assocFind B.index (Utf8State.Predecessor cidq 2) = some q2)
    (hq3 : assocFind B.index (Utf8State.Predecessor cidq 3) = some q3)
    (hL : LocalE B st q1 q2 q3) :
    LocalE (add_transition_id B x b destid) st q1 q2 q3 := by
  have hxlen : x < B.transitions.length := by rw [hI.trans_len]; exact hxlt
  obtain ⟨hL1, hL2, hL3⟩ := hL
  have hstrow : ∀ bb, rowOf (add_transition_id B x b destid) st bb = rowOf B st bb := by
    intro bb
    rw [rowOf_ati_ne B x b destid st hstx]
  refine ⟨?_, ?_, ?_⟩
  · intro bb hbb hbb'
    rcases hL1 bb hbb hbb' with h1 | ⟨hNI, hsub⟩
    · exact Or.inl (by rw [hstrow]; exact h1)
    · refine Or.inr ⟨by rw [hstrow]; exact hNI, ?_⟩
      intro b2 hb2 hb2'
      rw [hstrow]
      by_cases hex : rowOf B st bb = x
      · rw [hex]
        by_cases hb2b : b2 = b
        · rw [hb2b, rowOf_ati_self B x b destid hxlen, updRow_self]
          exact Or.inr hdest
        · rw [rowOf_ati_self B x b destid hxlen, updRow_ne _ _ _ _ hb2b]
          have hsub2 := hsub b2 hb2 hb2'
          rw [hex] at hsub2
          exact hsub2
      · rw [rowOf_ati_ne B x b destid _ hex]
        exact hsub b2 hb2 hb2'
  · intro bb hbb hbb'
    rcases hL2 bb hbb hbb' with h1 | ⟨hNI, hsub⟩
    · exact Or.inl (by rw [hstrow]; exact h1)
    · refine Or.inr ⟨by rw [hstrow]; exact hNI, ?_⟩
      intro b2 hb2 hb2'
      rw [hstrow]
      by_cases hex : rowOf B st bb = x
      · exfalso
        have hsubb := hsub b hb hb'
        rw [hex] at hsubb
        rcases hfact with ⟨cid1, pp1, hpp1, hrow⟩ | ⟨u2, hu2⟩
        · have hpq : pp1 = q2 := by rw [← hrow]; exact hsubb
          exact ne_of_keys B hI _ _ _ _ hpp1 hq2 (by intro hh; simp at hh) hpq
        · rw [hsubb] at hu2
          exact ne_of_keys B hI _ _ _ _ hu2 hq2
            (by intro hh; exact Utf8State.noConfusion hh) rfl
      · rw [rowOf_ati_ne B x b destid _ hex]
        exact hsub b2 hb2 hb2'
  · intro bb hbb
    rcases hL3 bb hbb with h1 | ⟨hNI, hsub⟩
    · exact Or.inl (by rw [hstrow]; exact h1)
    · refine Or.inr ⟨by rw [hstrow]; exact hNI, ?_⟩
      intro b2 hb2 hb2'
      rw [hstrow]
      by_cases hex : rowOf B st bb = x
      · exfalso
        have hsubb := hsub b hb hb'
        rw [hex] at hsubb
        rcases hfact with ⟨cid1, pp1, hpp1, hrow⟩ | ⟨u2, hu2⟩
        · have hpq : pp1 = q3 := by rw [← hrow]; exact hsubb
          exact ne_of_keys B hI _ _ _ _ hpp1 hq3 (by intro hh; simp at hh) hpq
        · rw [hsubb] at hu2
          exact ne_of_keys B hI _ _ _ _ hu2 hq3
            (by intro hh; exact Utf8State.noConfusion hh) rfl
      · rw [rowOf_ati_ne B x b destid _ hex]
        exact hsub b2 hb2 hb2'

/-- The final write of a multi-2-byte explicit transition: an interned
`Original` id written into a never-interned intermediate state's row at a
continuation-byte position preserves the structural invariant. -/
theorem sinv_write_notint_cont (B : DFABuilder) (x b destid : Nat)
    (hI : Inv B) (hS : Sinv B) (hx : NotInterned B x) (hxlt : x < B.num_states)
    (hb : 128 ≤ b) (hb' : b < 192)
    (hfact : (∃ cid1 pp1, assocFind B.index (Utf8State.Predecessor cid1 1) = some pp1 ∧
        rowOf B x b = pp1) ∨ IsOrigId B (rowOf B x b))
    (hdest : IsOrigId B destid) :
    Sinv (add_transition_id B x b destid) := by
  constructor
  · intro cid' p2' p3' h2 h3 bb
    have hax : p3' ≠ x := fun hh => hx (Utf8State.Predecessor cid' 3) (by rw [hh] at h3; exact h3)
    rw [rowOf_ati_ne B x b destid p3' hax]
    exact hS.p3row cid' p2' p3' h2 h3 bb
  · intro u st hst
    have hsx : st ≠ x := fun hh => hx (Utf8State.Original u) (by rw [hh] at hst; exact hst)
    rcases hS.strow u st hst with hz | ⟨cid', p1', p2', p3', f1, f2, f3, hL'⟩
    · refine Or.inl ?_
      intro bb
      rw [rowOf_ati_ne B x b destid st hsx]
      exact hz bb
    · exact Or.inr ⟨cid', p1', p2', p3', f1, f2, f3,
        localE_write_notint_cont B x b destid st cid' p1' p2' p3' hI hx hxlt hb hb'
          hfact hdest hsx f2 f3 hL'⟩

/-- The final write of a 3- or 4-byte explicit transition: writing into
the interned `remaining = 2` predecessor's row preserves the structural
invariant (no clause constrains that row). -/
theorem sinv_write_p2_cont (B : DFABuilder) (x b destid : Nat)
    (hI : Inv B) (hS : Sinv B)
    (hx2 : ∃ cid, assocFind B.index (Utf8State.Predecessor cid 2) = some x) :
    Sinv (add_transition_id B x b destid) := by
  obtain ⟨cidx, hcx⟩ := hx2
  constructor
  · intro cid' p2' p3' h2 h3 bb
    have hax : p3' ≠ x := ne_of_keys B hI _ _ _ _ h3 hcx (by intro hh; simp at hh)
    rw [rowOf_ati_ne B x b destid p3' hax]
    exact hS.p3row cid' p2' p3' h2 h3 bb
  · intro u st hst
    have hsx : st ≠ x := ne_of_keys B hI _ _ _ _ hst hcx
      (by intro hh; exact Utf8State.noConfusion hh)
    rcases hS.strow u st hst with hz | ⟨cid', p1', p2', p3', f1, f2, f3, hL'⟩
    · refine Or.inl ?_
      intro bb
      rw [rowOf_ati_ne B x b destid st hsx]
      exact hz bb
    · exact Or.inr ⟨cid', p1', p2', p3', f1, f2, f3,
        localE_ati_untouched B x b destid st p1' p2' p3' hL' hsx ⟨_, hcx⟩⟩

/-- A write into a registered (and classified) `Original` state's row at a
byte position below 192 preserves the structural invariant and the
state's own classification: those positions are unclassified, and the
target row cannot be a predecessor row or an intermediate state. -/
theorem sinv_write_orig_low (B : DFABuilder) (x b v cid p1 p2 p3 : Nat)
    (hI : Inv B) (hS : Sinv B) (hx : IsOrigId B x) (hxlt : x < B.num_states)
    (hc1 : assocFind B.index (Utf8State.Predecessor cid 1) = some p1)
    (hc2 : assocFind B.index (Utf8State.Predecessor cid 2) = some p2)
    (hc3 : assocFind B.index (Utf8State.Predecessor cid 3) = some p3)
    (hL : LocalE B x p1 p2 p3) (hb : b < 192) :
    Sinv (add_transition_id B x b v) ∧ LocalE (add_transition_id B x b v) x p1 p2 p3 := by
  obtain ⟨u0, hu0⟩ := hx
  have hxlen : x < B.transitions.length := by rw [hI.trans_len]; exact hxlt
  have hself : ∀ bb, 192 ≤ bb → rowOf (add_transition_id B x b v) x bb = rowOf B x bb := by
    intro bb hbb
    rw [rowOf_ati_self B x b v hxlen, updRow_ne _ _ _ _ (by omega)]
  have hLx : LocalE (add_transition_id B x b v) x p1 p2 p3 := by
    obtain ⟨hL1, hL2, hL3⟩ := hL
    refine ⟨?_, ?_, ?_⟩
    · intro bb hbb hbb'
      rcases hL1 bb hbb hbb' with h1 | ⟨hNI, hsub⟩
      · exact Or.inl (by rw [hself bb (by omega)]; exact h1)
      · have hex : rowOf B x bb ≠ x := fun hh =>
          hNI (Utf8State.Original u0) (by rw [hu0, hh])
        refine Or.inr ⟨by rw [hself bb (by omega)]; exact hNI, ?_⟩
        intro b2 hb2 hb2'
        rw [hself bb (by omega), rowOf_ati_ne B x b v _ hex]
        exact hsub b2 hb2 hb2'
    · intro bb hbb hbb'
      rcases hL2 bb hbb hbb' with h1 | ⟨hNI, hsub⟩
      · exact Or.inl (by rw [hself bb (by omega)]; exact h1)
      · have hex : rowOf B x bb ≠ x := fun hh =>
          hNI (Utf8State.Original u0) (by rw [hu0, hh])
        refine Or.inr ⟨by rw [hself bb (by omega)]; exact hNI, ?_⟩
        intro b2 hb2 hb2'
        rw [hself bb (by omega), rowOf_ati_ne B x b v _ hex]
        exact hsub b2 hb2 hb2'
    · intro bb hbb
      rcases hL3 bb hbb with h1 | ⟨hNI, hsub⟩
      · exact Or.inl (by rw [hself bb (by omega)]; exact h1)
      · have hex : rowOf B x bb ≠ x := fun hh =>
          hNI (Utf8State.Original u0) (by rw [hu0, hh])
        refine Or.inr ⟨by rw [hself bb (by omega)]; exact hNI, ?_⟩
        intro b2 hb2 hb2'
        rw [hself bb (by omega), rowOf_ati_ne B x b v _ hex]
        exact hsub b2 hb2 hb2'
  refine ⟨⟨?_, ?_⟩, hLx⟩
  · intro cid' p2' p3' h2 h3 bb
    have hax : p3' ≠ x :=
      ne_of_keys B hI _ _ _ _ h3 hu0 (by intro hh; exact Utf8State.noConfusion hh)
    rw [rowOf_ati_ne B x b v p3' hax]
    exact hS.p3row cid' p2' p3' h2 h3 bb
  · intro u st hst
    by_cases hsx : st = x
    · subst hsx
      exact Or.inr ⟨cid, p1, p2, p3, hc1, hc2, hc3, hLx⟩
    · rcases hS.strow u st hst with hz | ⟨cid', p1', p2', p3', f1, f2, f3, hL'⟩
      · refine Or.inl ?_
        intro bb
        rw [rowOf_ati_ne B x b v st hsx]
        exact hz bb
      · exact Or.inr ⟨cid', p1', p2', p3', f1, f2, f3,
          localE_ati_untouched B x b v st p1' p2' p3' hL' hsx ⟨_, hu0⟩⟩

/-- The allocate-and-fill branch of the first `add_transition` hop on a
multi-byte lead byte: a fresh intermediate state is allocated, its row is
filled with the step's default successor, and the registered state's row
entry for the lead byte is redirected to it.  All invariants are
preserved and the effect is characterized exactly. -/
theorem pres_alloc_fill (B : DFABuilder) (st b0 pk s cid p1 p2 p3 : Nat)
    (hI : Inv B) (hS : Sinv B) (hV : VSafe s B)
    (hstO : IsOrigId B st) (hst : st < B.num_states)
    (hc1 : assocFind B.index (Utf8State.Predecessor cid 1) = some p1)
    (hc2 : assocFind B.index (Utf8State.Predecessor cid 2) = some p2)
    (hc3 : assocFind B.index (Utf8State.Predecessor cid 3) = some p3)
    (hL : LocalE B st p1 p2 p3)
    (hsv : ∀ w, assocFind B.index (Utf8State.Original s) = some w → w ≠ st)
    (hcls : (192 ≤ b0 ∧ b0 < 224 ∧ pk = p1) ∨ (224 ≤ b0 ∧ b0 < 240 ∧ pk = p2) ∨
      (240 ≤ b0 ∧ pk = p3)) :
    ∀ B2, B2 = add_transition_id
        { (B.allocate).2 with transitions :=
          ((B.allocate).2.transitions.set (B.allocate).1 (fun _ => pk)) } st b0
        (B.allocate).1 →
      Inv B2 ∧ Sinv B2 ∧ VSafe s B2 ∧ LocalE B2 st p1 p2 p3 ∧
      B2.index = B.index ∧ B2.num_states = B.num_states + 1 ∧
      NotInterned B2 (B.allocate).1 ∧
      (∀ b, rowOf B2 (B.allocate).1 b = pk) ∧
      (∀ j b, j < B.num_states → j ≠ st → rowOf B2 j b = rowOf B j b) ∧
      rowOf B2 st b0 = (B.allocate).1 ∧
      (∀ b, b ≠ b0 → rowOf B2 st b = rowOf B st b) ∧
      (∀ i d, i < B.num_states → B2.distances.getD i d = B.distances.getD i d) := by
  intro B2 hB2
  obtain ⟨u0, hu0⟩ := hstO
  obtain ⟨ha1, ha2, ha3, ha4, ha5, ha6, ha7⟩ := allocate_spec B hI
  have hpk : pk < B.num_states := by
    rcases hcls with ⟨_, _, he⟩ | ⟨_, _, he⟩ | ⟨_, he⟩
    · rw [he]
      exact hI.index_lt _ _ hc1
    · rw [he]
      exact hI.index_lt _ _ hc2
    · rw [he]
      exact hI.index_lt _ _ hc3
  set B1 : DFABuilder := { (B.allocate).2 with transitions :=
    ((B.allocate).2.transitions.set (B.allocate).1 (fun _ => pk)) } with hB1def
  have hB1num : B1.num_states = B.num_states + 1 := ha2
  have hB1idx : B1.index = B.index := ha3
  have hI1 : Inv B1 := setRow_inv (B.allocate).2 (B.allocate).1 (fun _ => pk) ha7
    (fun _ => by rw [ha2]; exact Nat.lt_succ_of_lt hpk)
  have hB1len : B1.transitions.length = B.num_states + 1 := by
    rw [hI1.trans_len, hB1num]
  have hfB1row : rowOf B1 (B.allocate).1 = (fun _ => pk) :=
    rowOf_set_self (B.allocate).2 (B.allocate).1 _
      (by rw [ha7.trans_len, ha2, ha1]; exact Nat.lt_succ_self _)
  have hB1rowj : ∀ j, j < B.num_states → rowOf B1 j = rowOf B j := by
    intro j hj
    have h1 : rowOf B1 j = rowOf (B.allocate).2 j :=
      rowOf_set_ne (B.allocate).2 (B.allocate).1 j _ (by rw [ha1]; exact Nat.ne_of_gt hj)
    rw [h1]
    show ((B.allocate).2.transitions).getD j (fun _ => 0) = rowOf B j
    rw [ha5, getD_append_left _ _ _ _ (by rw [hI.trans_len]; exact hj)]
    rfl
  have hstnef : st ≠ (B.allocate).1 := by rw [ha1]; exact Nat.ne_of_lt hst
  have hstlen1 : st < B1.transitions.length := by
    rw [hB1len]
    exact Nat.lt_succ_of_lt hst
  subst hB2
  have hI2 : Inv (add_transition_id B1 st b0 (B.allocate).1) :=
    (add_transition_id_inv B1 st b0 (B.allocate).1 hI1
      (by rw [hB1num]; exact Nat.lt_succ_of_lt hst)
      (by show (B.allocate).1 < B1.num_states; rw [ha1, hB1num]; exact Nat.lt_succ_self _)).1
  set B2 : DFABuilder := add_transition_id B1 st b0 (B.allocate).1 with hB2def
  have hB2rowst : rowOf B2 st = updRow (rowOf B1 st) b0 (B.allocate).1 :=
    rowOf_ati_self B1 st b0 _ hstlen1
  have hfne2 : (B.allocate).1 ≠ st := fun hh => hstnef hh.symm
  have concF : ∀ b, rowOf B2 (B.allocate).1 b = pk := by
    intro b
    rw [show rowOf B2 (B.allocate).1 = rowOf B1 (B.allocate).1 from
      rowOf_ati_ne B1 st b0 _ _ hfne2, hfB1row]
  have concJ : ∀ j b, j < B.num_states → j ≠ st → rowOf B2 j b = rowOf B j b := by
    intro j b hj hjst
    rw [show rowOf B2 j = rowOf B1 j from rowOf_ati_ne B1 st b0 _ j hjst, hB1rowj j hj]
  have concSTb0 : rowOf B2 st b0 = (B.allocate).1 := by
    rw [hB2rowst, updRow_self]
  have concSTne : ∀ b, b ≠ b0 → rowOf B2 st b = rowOf B st b := by
    intro b hb
    rw [hB2rowst, updRow_ne _ _ _ _ hb, hB1rowj st hst]
  have concD : ∀ i (d : Distance), i < B.num_states →
      B2.distances.getD i d = B.distances.getD i d := by
    intro i d hi
    show B1.distances.getD i d = B.distances.getD i d
    show ((B.allocate).2.distances).getD i d = B.distances.getD i d
    rw [ha4, getD_append_left _ _ _ _ (by rw [hI.dist_len]; exact hi)]
  have concNI : NotInterned B2 (B.allocate).1 := by
    intro k hk
    exact notInterned_fresh B hI k hk
  have concIdx : B2.index = B.index := ha3
  have concNum : B2.num_states = B.num_states + 1 := ha2
  have hLB2 : LocalE B2 st p1 p2 p3 := by
    obtain ⟨hL1, hL2, hL3⟩ := hL
    refine ⟨?_, ?_, ?_⟩
    · intro bb hbb hbb'
      by_cases hbb0 : bb = b0
      · subst hbb0
        rcases hcls with ⟨_, _, he⟩ | ⟨hc, _, _⟩ | ⟨hc, _⟩
        · rw [concSTb0]
          refine Or.inr ⟨concNI, ?_⟩
          intro b2 hb2 hb2'
          rw [concF b2, he]
          exact Or.inl rfl
        · omega
        · omega
      · rw [concSTne bb hbb0]
        rcases hL1 bb hbb hbb' with h1 | ⟨hNI, hsub⟩
        · exact Or.inl h1
        · have helt : rowOf B st bb < B.num_states := rowOf_lt B hI st hst bb
          have hest : rowOf B st bb ≠ st := fun hh =>
            hNI (Utf8State.Original u0) (by rw [hu0, hh])
          refine Or.inr ⟨fun k hk => hNI k (by rw [← concIdx]; exact hk), ?_⟩
          intro b2 hb2 hb2'
          rw [concJ _ b2 helt hest]
          rcases hsub b2 hb2 hb2' with h2 | ⟨u2, hu2⟩
          · exact Or.inl h2
          · exact Or.inr ⟨u2, by rw [concIdx]; exact hu2⟩
    · intro bb hbb hbb'
      by_cases hbb0 : bb = b0
      · subst hbb0
        rcases hcls with ⟨_, hc, _⟩ | ⟨_, _, he⟩ | ⟨hc, _⟩
        · omega
        · rw [concSTb0]
          refine Or.inr ⟨concNI, ?_⟩
          intro b2 hb2 hb2'
          rw [concF b2, he]
        · omega
      · rw [concSTne bb hbb0]
        rcases hL2 bb hbb hbb' with h1 | ⟨hNI, hsub⟩
        · exact Or.inl h1
        · have helt : rowOf B st bb < B.num_states := rowOf_lt B hI st hst bb
          have hest : rowOf B st bb ≠ st := fun hh =>
            hNI (Utf8State.Original u0) (by rw [hu0, hh])
          refine Or.inr ⟨fun k hk => hNI k (by rw [← concIdx]; exact hk), ?_⟩
          intro b2 hb2 hb2'
          rw [concJ _ b2 helt hest]
          exact hsub b2 hb2 hb2'
    · intro bb hbb
      by_cases hbb0 : bb = b0
      · subst hbb0
        rcases hcls with ⟨_, hc, _⟩ | ⟨_, hc, _⟩ | ⟨_, he⟩
        · omega
        · omega
        · rw [concSTb0]
          refine Or.inr ⟨concNI, ?_⟩
          intro b2 hb2 hb2'
          rw [concF b2, he]
      · rw [concSTne bb hbb0]
        rcases hL3 bb hbb with h1 | ⟨hNI, hsub⟩
        · exact Or.inl h1
        · have helt : rowOf B st bb < B.num_states := rowOf_lt B hI st hst bb
          have hest : rowOf B st bb ≠ st := fun hh =>
            hNI (Utf8State.Original u0) (by rw [hu0, hh])
          refine Or.inr ⟨fun k hk => hNI k (by rw [← concIdx]; exact hk), ?_⟩
          intro b2 hb2 hb2'
          rw [concJ _ b2 helt hest]
          exact hsub b2 hb2 hb2'
  have hSB2 : Sinv B2 := by
    constructor
    · intro cid' p2' p3' h2 h3 bb
      have h2' : assocFind B.index (Utf8State.Predecessor cid' 2) = some p2' := h2
      have h3' : assocFind B.index (Utf8State.Predecessor cid' 3) = some p3' := h3
      have hax : p3' ≠ st :=
        ne_of_keys B hI _ _ _ _ h3' hu0 (by intro hh; exact Utf8State.noConfusion hh)
      rw [concJ p3' bb (hI.index_lt _ _ h3') hax]
      exact hS.p3row cid' p2' p3' h2' h3' bb
    · intro u st' hst'
      have hst'B : assocFind B.index (Utf8State.Original u) = some st' := hst'
      by_cases hss : st' = st
      · subst hss
        exact Or.inr ⟨cid, p1, p2, p3, hc1, hc2, hc3, hLB2⟩
      · have hst'lt : st' < B.num_states := hI.index_lt _ _ hst'B
        rcases hS.strow u st' hst'B with hz | ⟨cid', p1', p2', p3', f1, f2, f3, hL'⟩
        · refine Or.inl ?_
          intro bb
          rw [concJ st' bb hst'lt hss]
          exact hz bb
        · refine Or.inr ⟨cid', p1', p2', p3', f1, f2, f3, ?_⟩
          obtain ⟨hL1, hL2, hL3⟩ := hL'
          refine ⟨?_, ?_, ?_⟩
          · intro bb hbb hbb'
            rw [concJ st' bb hst'lt hss]
            rcases hL1 bb hbb hbb' with h1 | ⟨hNI, hsub⟩
            · exact Or.inl h1
            · have helt : rowOf B st' bb < B.num_states := rowOf_lt B hI st' hst'lt bb
              have hest : rowOf B st' bb ≠ st := fun hh =>
                hNI (Utf8State.Original u0) (by rw [hu0, hh])
              refine Or.inr ⟨fun k hk => hNI k (by rw [← concIdx]; exact hk), ?_⟩
              intro b2 hb2 hb2'
              rw [concJ _ b2 helt hest]
              rcases hsub b2 hb2 hb2' with h2 | ⟨u2, hu2⟩
              · exact Or.inl h2
              · exact Or.inr ⟨u2, by rw [concIdx]; exact hu2⟩
          · intro bb hbb hbb'
            rw [concJ st' bb hst'lt hss]
            rcases hL2 bb hbb hbb' with h1 | ⟨hNI, hsub⟩
            · exact Or.inl h1
            · have helt : rowOf B st' bb < B.num_states := rowOf_lt B hI st' hst'lt bb
              have hest : rowOf B st' bb ≠ st := fun hh =>
                hNI (Utf8State.Original u0) (by rw [hu0, hh])
              refine Or.inr ⟨fun k hk => hNI k (by rw [← concIdx]; exact hk), ?_⟩
              intro b2 hb2 hb2'
              rw [concJ _ b2 helt hest]
              exact hsub b2 hb2 hb2'
          · intro bb hbb
            rw [concJ st' bb hst'lt hss]
            rcases hL3 bb hbb with h1 | ⟨hNI, hsub⟩
            · exact Or.inl h1
            · have helt : rowOf B st' bb < B.num_states := rowOf_lt B hI st' hst'lt bb
              have hest : rowOf B st' bb ≠ st := fun hh =>
                hNI (Utf8State.Original u0) (by rw [hu0, hh])
              refine Or.inr ⟨fun k hk => hNI k (by rw [← concIdx]; exact hk), ?_⟩
              intro b2 hb2 hb2'
              rw [concJ _ b2 helt hest]
              exact hsub b2 hb2 hb2'
  have hVB2 : VSafe s B2 := by
    intro w hw
    have hwB : assocFind B.index (Utf8State.Original s) = some w := hw
    obtain ⟨hd, hr⟩ := hV w hwB
    refine ⟨?_, ?_⟩
    · rw [concD w _ (hI.index_lt _ _ hwB)]
      exact hd
    · intro bb
      rw [concJ w bb (hI.index_lt _ _ hwB) (hsv w hwB)]
      exact hr bb
  exact ⟨hI2, hSB2, hVB2, hLB2, concIdx, concNum, concNI, concF, concJ, concSTb0,
    concSTne, concD⟩

/-- The invariant bundle carried through an `add_state` handle's sequence
of `add_transition` calls: well-formedness, the structural invariant, the
C9 payload, and the handle state's classification against its own chain. -/
structure Good (s st cid p1 p2 p3 : Nat) (B : DFABuilder) : Prop where
  inv : Inv B
  sinv : Sinv B
  vsafe : VSafe s B
  hst : st < B.num_states
  hstO : IsOrigId B st
  hc1 : assocFind B.index (Utf8State.Predecessor cid 1) = some p1
  hc2 : assocFind B.index (Utf8State.Predecessor cid 2) = some p2
  hc3 : assocFind B.index (Utf8State.Predecessor cid 3) = some p3
  loc : LocalE B st p1 p2 p3
  hsv : ∀ w, assocFind B.index (Utf8State.Original s) = some w → w ≠ st

theorem hsv_goa (B : DFABuilder) (k : Utf8State) (s st : Nat) (hst : st < B.num_states)
    (hsv : ∀ w, assocFind B.index (Utf8State.Original s) = some w → w ≠ st) :
    ∀ w, assocFind (B.get_or_allocate k).2.index (Utf8State.Original s) = some w → w ≠ st := by
  intro w hw
  rcases goa_bindings B _ _ _ hw with hold | ⟨_, hfresh, _⟩
  · exact hsv w hold
  · rw [hfresh]
    intro hh2
    rw [← hh2] at hst
    exact absurd hst (Nat.lt_irrefl _)

/-- Final hop of a 1-byte explicit transition: intern the destination and
write it into the registered state's row below byte 192. -/
theorem atp_fin_orig (B : DFABuilder) (s st cid p1 p2 p3 t' b : Nat)
    (G : Good s st cid p1 p2 p3 B) (hb : b < 192) :
    Good s st cid p1 p2 p3
      (add_transition_id (B.get_or_allocate (Utf8State.Original t')).2 st b
        (B.get_or_allocate (Utf8State.Original t')).1) := by
  obtain ⟨hI1, lt1, find1, mono1, max1, pers1, rows1, dist1, init1⟩ :=
    goa_spec B (Utf8State.Original t') G.inv
  have hstR : st < (B.get_or_allocate (Utf8State.Original t')).2.num_states :=
    Nat.lt_of_lt_of_le G.hst mono1
  have hSL := sinv_write_orig_low (B.get_or_allocate (Utf8State.Original t')).2 st b
    (B.get_or_allocate (Utf8State.Original t')).1 cid p1 p2 p3 hI1
    (sinv_goa_orig B t' G.inv G.sinv) (isOrig_goa B _ st G.hstO) hstR
    (pers1 _ _ G.hc1) (pers1 _ _ G.hc2) (pers1 _ _ G.hc3)
    (localE_goa B _ st p1 p2 p3 G.inv G.hst G.loc) hb
  refine ⟨?_, hSL.1, ?_, ?_, ?_, ?_, ?_, ?_, hSL.2, ?_⟩
  · exact (add_transition_id_inv _ st b _ hI1 hstR lt1).1
  · exact vsafe_ati _ st b _ s (vsafe_goa B _ s G.inv G.vsafe)
      (hsv_goa B _ s st G.hst G.hsv)
  · exact hstR
  · exact isOrig_goa B _ st G.hstO
  · exact pers1 _ _ G.hc1
  · exact pers1 _ _ G.hc2
  · exact pers1 _ _ G.hc3
  · exact hsv_goa B _ s st G.hst G.hsv

/-- Final hop of a 2-byte explicit transition: intern the destination and
write it into the never-interned intermediate state's row at the
continuation byte. -/
theorem atp_fin_notint (B : DFABuilder) (s st cid p1 p2 p3 t' x b : Nat)
    (G : Good s st cid p1 p2 p3 B)
    (hx : NotInterned B x) (hxlt : x < B.num_states)
    (hb : 128 ≤ b) (hb' : b < 192)
    (hfact : (∃ cid1 pp1, assocFind B.index (Utf8State.Predecessor cid1 1) = some pp1 ∧
        rowOf B x b = pp1) ∨ IsOrigId B (rowOf B x b))
    (hstx : st ≠ x) :
    Good s st cid p1 p2 p3
      (add_transition_id (B.get_or_allocate (Utf8State.Original t')).2 x b
        (B.get_or_allocate (Utf8State.Original t')).1) := by
  obtain ⟨hI1, lt1, find1, mono1, max1, pers1, rows1, dist1, init1⟩ :=
    goa_spec B (Utf8State.Original t') G.inv
  have hstR : st < (B.get_or_allocate (Utf8State.Original t')).2.num_states :=
    Nat.lt_of_lt_of_le G.hst mono1
  have hxltR : x < (B.get_or_allocate (Utf8State.Original t')).2.num_states :=
    Nat.lt_of_lt_of_le hxlt mono1
  have hxR : NotInterned (B.get_or_allocate (Utf8State.Original t')).2 x :=
    notInterned_goa B _ x hx hxlt
  have hrowsx : rowOf (B.get_or_allocate (Utf8State.Original t')).2 x b = rowOf B x b :=
    rows1 x hxlt b
  have hfactR : (∃ cid1 pp1,
      assocFind (B.get_or_allocate (Utf8State.Original t')).2.index
        (Utf8State.Predecessor cid1 1) = some pp1 ∧
      rowOf (B.get_or_allocate (Utf8State.Original t')).2 x b = pp1) ∨
      IsOrigId (B.get_or_allocate (Utf8State.Original t')).2
        (rowOf (B.get_or_allocate (Utf8State.Original t')).2 x b) := by
    rcases hfact with ⟨cid1, pp1, hpp1, hrow⟩ | h2
    · exact Or.inl ⟨cid1, pp1, pers1 _ _ hpp1, by rw [hrowsx]; exact hrow⟩
    · refine Or.inr ?_
      rw [hrowsx]
      exact isOrig_goa B _ _ h2
  have hdestR : IsOrigId (B.get_or_allocate (Utf8State.Original t')).2
      (B.get_or_allocate (Utf8State.Original t')).1 := ⟨t', find1⟩
  have hsvx : ∀ w, assocFind (B.get_or_allocate (Utf8State.Original t')).2.index
      (Utf8State.Original s) = some w → w ≠ x := by
    intro w hw
    rcases goa_bindings B _ _ _ hw with hold | ⟨_, hfresh, _⟩
    · exact fun hh => hx (Utf8State.Original s) (by rw [← hh]; exact hold)
    · rw [hfresh]
      intro hh2
      rw [← hh2] at hxlt
      exact absurd hxlt (Nat.lt_irrefl _)
  refine ⟨?_, ?_, ?_, ?_, ?_, ?_, ?_, ?_, ?_, ?_⟩
  · exact (add_transition_id_inv _ x b _ hI1 hxltR lt1).1
  · exact sinv_write_notint_cont _ x b _ hI1 (sinv_goa_orig B t' G.inv G.sinv) hxR hxltR
      hb hb' hfactR hdestR
  · exact vsafe_ati _ x b _ s (vsafe_goa B _ s G.inv G.vsafe) hsvx
  · exact hstR
  · exact isOrig_goa B _ st G.hstO
  · exact pers1 _ _ G.hc1
  · exact pers1 _ _ G.hc2
  · exact pers1 _ _ G.hc3
  · exact localE_write_notint_cont _ x b _ st cid p1 p2 p3 hI1 hxR hxltR hb hb'
      hfactR hdestR hstx (pers1 _ _ G.hc2) (pers1 _ _ G.hc3)
      (localE_goa B _ st p1 p2 p3 G.inv G.hst G.loc)
  · exact hsv_goa B _ s st G.hst G.hsv

/-- Final hop of a 3- or 4-byte explicit transition: intern the
destination and write it into the chain's `remaining = 2` predecessor. -/
theorem atp_fin_p2 (B : DFABuilder) (s st cid p1 p2 p3 t' b : Nat)
    (G : Good s st cid p1 p2 p3 B) :
    Good s st cid p1 p2 p3
      (add_transition_id (B.get_or_allocate (Utf8State.Original t')).2 p2 b
        (B.get_or_allocate (Utf8State.Original t')).1) := by
  obtain ⟨hI1, lt1, find1, mono1, max1, pers1, rows1, dist1, init1⟩ :=
    goa_spec B (Utf8State.Original t') G.inv
  obtain ⟨u0, hu0⟩ := G.hstO
  have hstR : st < (B.get_or_allocate (Utf8State.Original t')).2.num_states :=
    Nat.lt_of_lt_of_le G.hst mono1
  have hp2lt : p2 < B.num_states := G.inv.index_lt _ _ G.hc2
  have hp2ltR : p2 < (B.get_or_allocate (Utf8State.Original t')).2.num_states :=
    Nat.lt_of_lt_of_le hp2lt mono1
  have hstp2 : st ≠ p2 := ne_of_keys B G.inv _ _ _ _ hu0 G.hc2
    (by intro hh; exact Utf8State.noConfusion hh)
  have hsvp2 : ∀ w, assocFind (B.get_or_allocate (Utf8State.Original t')).2.index
      (Utf8State.Original s) = some w → w ≠ p2 := by
    intro w hw
    rcases goa_bindings B _ _ _ hw with hold | ⟨_, hfresh, _⟩
    · exact ne_of_keys B G.inv _ _ _ _ hold G.hc2
        (by intro hh; exact Utf8State.noConfusion hh)
    · rw [hfresh]
      intro hh2
      rw [← hh2] at hp2lt
      exact absurd hp2lt (Nat.lt_irrefl _)
  refine ⟨?_, ?_, ?_, ?_, ?_, ?_, ?_, ?_, ?_, ?_⟩
  · exact (add_transition_id_inv _ p2 b _ hI1 hp2ltR lt1).1
  · exact sinv_write_p2_cont _ p2 b _ hI1 (sinv_goa_orig B t' G.inv G.sinv)
      ⟨cid, pers1 _ _ G.hc2⟩
  · exact vsafe_ati _ p2 b _ s (vsafe_goa B _ s G.inv G.vsafe) hsvp2
  · exact hstR
  · exact isOrig_goa B _ st G.hstO
  · exact pers1 _ _ G.hc1
  · exact pers1 _ _ G.hc2
  · exact pers1 _ _ G.hc3
  · exact localE_ati_untouched _ p2 b _ st p1 p2 p3
      (localE_goa B _ st p1 p2 p3 G.inv G.hst G.loc) hstp2
      ⟨Utf8State.Predecessor cid 2, pers1 _ _ G.hc2⟩
  · exact hsv_goa B _ s st G.hst G.hsv

/-- The final arm of the `add_transition` walk, as an unconditional
equation. -/
theorem go_fin_eq (B : DFABuilder) (ds : List Nat) (t' x b : Nat) :
    addTransitionGo B ds t' x [b] =
      add_transition_id (B.get_or_allocate (Utf8State.Original t')).2 x b
        (B.get_or_allocate (Utf8State.Original t')).1 := rfl

/-- A reuse (miss) hop of the walk is a pure redirection: the write-back
of the entry already present does not change the builder. -/
theorem atp_step_miss_eq (B : DFABuilder) (ds : List Nat) (t' x ba bb : Nat)
    (rest : List Nat) (hmiss : ¬ rowOf B x ba = ds.getD (bb :: rest).length 0)
    (hxlen : x < B.transitions.length) :
    addTransitionGo B ds t' x (ba :: bb :: rest) =
      addTransitionGo B ds t' (rowOf B x ba) (bb :: rest) := by
  rw [go_step_miss B ds t' x ba bb rest hmiss, writeback_id B x ba hxlen]

/-- An allocate (hit) hop of the walk: the builder is extended by one
fresh intermediate state filled with the step's default successor, all
invariants carry over, and the walk continues from the fresh state. -/
theorem atp_step_hit (B : DFABuilder) (s st cid p1 p2 p3 t' b0 b1 : Nat)
    (rest : List Nat) (pk : Nat)
    (G : Good s st cid p1 p2 p3 B)
    (hpk : ([cid, p1, p2, p3] : List Nat).getD (b1 :: rest).length 0 = pk)
    (hcls : (192 ≤ b0 ∧ b0 < 224 ∧ pk = p1) ∨ (224 ≤ b0 ∧ b0 < 240 ∧ pk = p2) ∨
      (240 ≤ b0 ∧ pk = p3))
    (hhit : rowOf B st b0 = ([cid, p1, p2, p3] : List Nat).getD (b1 :: rest).length 0) :
    ∃ B2 f,
      addTransitionGo B [cid, p1, p2, p3] t' st (b0 :: b1 :: rest) =
        addTransitionGo B2 [cid, p1, p2, p3] t' f (b1 :: rest) ∧
      Good s st cid p1 p2 p3 B2 ∧
      NotInterned B2 f ∧ f < B2.num_states ∧ (∀ b, rowOf B2 f b = pk) ∧
      (∀ j b, j < B.num_states → j ≠ st → rowOf B2 j b = rowOf B j b) ∧
      B.num_states ≤ B2.num_states ∧ st ≠ f := by
  have hcls2 : (192 ≤ b0 ∧ b0 < 224 ∧
        ([cid, p1, p2, p3] : List Nat).getD (b1 :: rest).length 0 = p1) ∨
      (224 ≤ b0 ∧ b0 < 240 ∧
        ([cid, p1, p2, p3] : List Nat).getD (b1 :: rest).length 0 = p2) ∨
      (240 ≤ b0 ∧ ([cid, p1, p2, p3] : List Nat).getD (b1 :: rest).length 0 = p3) := by
    rcases hcls with ⟨a, b, c⟩ | ⟨a, b, c⟩ | ⟨a, c⟩
    · exact Or.inl ⟨a, b, by rw [hpk]; exact c⟩
    · exact Or.inr (Or.inl ⟨a, b, by rw [hpk]; exact c⟩)
    · exact Or.inr (Or.inr ⟨a, by rw [hpk]; exact c⟩)
  obtain ⟨hI2, hS2, hV2, hL2, hIdx2, hNum2, hNI2, hRowF2, hRowJ2, hRowSTb0, hRowSTne, hD2⟩ :=
    pres_alloc_fill B st b0 (([cid, p1, p2, p3] : List Nat).getD (b1 :: rest).length 0)
      s cid p1 p2 p3 G.inv G.sinv G.vsafe G.hstO G.hst G.hc1 G.hc2 G.hc3 G.loc G.hsv
      hcls2 _ rfl
  refine ⟨_, (B.allocate).1, go_step_hit B [cid, p1, p2, p3] t' st b0 b1 rest hhit,
    ⟨hI2, hS2, hV2, ?_, ?_, ?_, ?_, ?_, hL2, ?_⟩, hNI2, ?_, ?_, hRowJ2, ?_, ?_⟩
  · rw [hNum2]
    exact Nat.lt_succ_of_lt G.hst
  · obtain ⟨u0, hu0⟩ := G.hstO
    exact ⟨u0, by rw [hIdx2]; exact hu0⟩
  · rw [hIdx2]
    exact G.hc1
  · rw [hIdx2]
    exact G.hc2
  · rw [hIdx2]
    exact G.hc3
  · intro w hw
    rw [hIdx2] at hw
    exact G.hsv w hw
  · rw [hNum2]
    exact Nat.lt_succ_self _
  · intro b
    rw [hRowF2 b]
    exact hpk
  · rw [hNum2]
    exact Nat.le_succ _
  · intro hh
    have hstB := G.hst
    rw [hh] at hstB
    exact absurd hstB (Nat.lt_irrefl _)

/-- The whole walk for a 1-byte character. -/
theorem atp_len1 (B : DFABuilder) (s st cid p1 p2 p3 t' b : Nat)
    (G : Good s st cid p1 p2 p3 B) (hb : b < 192) :
    Good s st cid p1 p2 p3 (addTransitionGo B [cid, p1, p2, p3] t' st [b]) := by
  rw [go_fin_eq]
  exact atp_fin_orig B s st cid p1 p2 p3 t' b G hb

/-- The whole walk for a 2-byte character. -/
theorem atp_len2 (B : DFABuilder) (s st cid p1 p2 p3 t' b0 b1 : Nat)
    (G : Good s st cid p1 p2 p3 B)
    (hb0 : 192 ≤ b0) (hb0' : b0 < 224) (hb1 : 128 ≤ b1) (hb1' : b1 < 192) :
    Good s st cid p1 p2 p3 (addTransitionGo B [cid, p1, p2, p3] t' st [b0, b1]) := by
  by_cases hhit : rowOf B st b0 = p1
  · obtain ⟨B2, f, heq, G2, hNI2, hflt, hRowF2, hRowJ2, hmono2, hstf⟩ :=
      atp_step_hit B s st cid p1 p2 p3 t' b0 b1 [] p1 G rfl
        (Or.inl ⟨hb0, hb0', rfl⟩) hhit
    rw [heq, go_fin_eq]
    exact atp_fin_notint B2 s st cid p1 p2 p3 t' f b1 G2 hNI2 hflt hb1 hb1'
      (Or.inl ⟨cid, p1, G2.hc1, hRowF2 b1⟩) hstf
  · rcases G.loc.1 b0 hb0 hb0' with h1 | ⟨hNI, hsub⟩
    · exact absurd h1 hhit
    rw [atp_step_miss_eq B [cid, p1, p2, p3] t' st b0 b1 [] hhit
      (by rw [G.inv.trans_len]; exact G.hst), go_fin_eq]
    refine atp_fin_notint B s st cid p1 p2 p3 t' (rowOf B st b0) b1 G hNI
      (rowOf_lt B G.inv st G.hst b0) hb1 hb1' ?_ ?_
    · rcases hsub b1 hb1 hb1' with h2 | h2
      · exact Or.inl ⟨cid, p1, G.hc1, h2⟩
      · exact Or.inr h2
    · intro hh
      obtain ⟨u0, hu0⟩ := G.hstO
      exact hNI (Utf8State.Original u0) (by rw [← hh]; exact hu0)

/-- The whole walk for a 3-byte character. -/
theorem atp_len3 (B : DFABuilder) (s st cid p1 p2 p3 t' b0 b1 b2 : Nat)
    (G : Good s st cid p1 p2 p3 B)
    (hb0 : 224 ≤ b0) (hb0' : b0 < 240) (hb1 : 128 ≤ b1) (hb1' : b1 < 192)
    (hb2 : 128 ≤ b2) (hb2' : b2 < 192) :
    Good s st cid p1 p2 p3 (addTransitionGo B [cid, p1, p2, p3] t' st [b0, b1, b2]) := by
  have hne21 : p2 ≠ p1 :=
    ne_of_keys B G.inv _ _ _ _ G.hc2 G.hc1 (by intro hh; simp at hh)
  by_cases hhit : rowOf B st b0 = p2
  · obtain ⟨B2, f, heq, G2, hNI2, hflt, hRowF2, hRowJ2, hmono2, hstf⟩ :=
      atp_step_hit B s st cid p1 p2 p3 t' b0 b1 [b2] p2 G rfl
        (Or.inr (Or.inl ⟨hb0, hb0', rfl⟩)) hhit
    rw [heq]
    have hmiss2 : ¬ rowOf B2 f b1 =
        ([cid, p1, p2, p3] : List Nat).getD (b2 :: ([] : List Nat)).length 0 := by
      rw [hRowF2 b1]
      exact hne21
    rw [atp_step_miss_eq B2 [cid, p1, p2, p3] t' f b1 b2 [] hmiss2
      (by rw [G2.inv.trans_len]; exact hflt), hRowF2 b1, go_fin_eq]
    exact atp_fin_p2 B2 s st cid p1 p2 p3 t' b2 G2
  · rcases G.loc.2.1 b0 hb0 hb0' with h1 | ⟨hNI, hsub⟩
    · exact absurd h1 hhit
    rw [atp_step_miss_eq B [cid, p1, p2, p3] t' st b0 b1 [b2] hhit
      (by rw [G.inv.trans_len]; exact G.hst)]
    have hxlt : rowOf B st b0 < B.num_states := rowOf_lt B G.inv st G.hst b0
    have hmiss2 : ¬ rowOf B (rowOf B st b0) b1 =
        ([cid, p1, p2, p3] : List Nat).getD (b2 :: ([] : List Nat)).length 0 := by
      rw [hsub b1 hb1 hb1']
      exact hne21
    rw [atp_step_miss_eq B [cid, p1, p2, p3] t' (rowOf B st b0) b1 b2 [] hmiss2
      (by rw [G.inv.trans_len]; exact hxlt), hsub b1 hb1 hb1', go_fin_eq]
    exact atp_fin_p2 B s st cid p1 p2 p3 t' b2 G

/-- The whole walk for a 4-byte character. -/
theorem atp_len4 (B : DFABuilder) (s st cid p1 p2 p3 t' b0 b1 b2 b3 : Nat)
    (G : Good s st cid p1 p2 p3 B)
    (hb0 : 240 ≤ b0) (hb1 : 128 ≤ b1) (hb1' : b1 < 192)
    (hb2 : 128 ≤ b2) (hb2' : b2 < 192) (hb3 : 128 ≤ b3) (hb3' : b3 < 192) :
    Good s st cid p1 p2 p3
      (addTransitionGo B [cid, p1, p2, p3] t' st [b0, b1, b2, b3]) := by
  have hne21 : p2 ≠ p1 :=
    ne_of_keys B G.inv _ _ _ _ G.hc2 G.hc1 (by intro hh; simp at hh)
  have hne32 : p3 ≠ p2 :=
    ne_of_keys B G.inv _ _ _ _ G.hc3 G.hc2 (by intro hh; simp at hh)
  have hp3lt : p3 < B.num_states := G.inv.index_lt _ _ G.hc3
  have hp3st : p3 ≠ st := by
    obtain ⟨u0, hu0⟩ := G.hstO
    exact ne_of_keys B G.inv _ _ _ _ G.hc3 hu0 (by intro hh; exact Utf8State.noConfusion hh)
  by_cases hhit : rowOf B st b0 = p3
  · obtain ⟨B2, f, heq, G2, hNI2, hflt, hRowF2, hRowJ2, hmono2, hstf⟩ :=
      atp_step_hit B s st cid p1 p2 p3 t' b0 b1 [b2, b3] p3 G rfl
        (Or.inr (Or.inr ⟨hb0, rfl⟩)) hhit
    rw [heq]
    have hmiss2 : ¬ rowOf B2 f b1 =
        ([cid, p1, p2, p3] : List Nat).getD (b2 :: [b3]).length 0 := by
      rw [hRowF2 b1]
      exact hne32
    rw [atp_step_miss_eq B2 [cid, p1, p2, p3] t' f b1 b2 [b3] hmiss2
      (by rw [G2.inv.trans_len]; exact hflt), hRowF2 b1]
    have hp3row : rowOf B2 p3 b2 = p2 := by
      rw [hRowJ2 p3 b2 hp3lt hp3st]
      exact G.sinv.p3row cid p2 p3 G.hc2 G.hc3 b2
    have hmiss3 : ¬ rowOf B2 p3 b2 =
        ([cid, p1, p2, p3] : List Nat).getD (b3 :: ([] : List Nat)).length 0 := by
      rw [hp3row]
      exact hne21
    rw [atp_step_miss_eq B2 [cid, p1, p2, p3] t' p3 b2 b3 [] hmiss3
      (by rw [G2.inv.trans_len]; exact Nat.lt_of_lt_of_le hp3lt hmono2), hp3row, go_fin_eq]
    exact atp_fin_p2 B2 s st cid p1 p2 p3 t' b3 G2
  · rcases G.loc.2.2 b0 hb0 with h1 | ⟨hNI, hsub⟩
    · exact absurd h1 hhit
    rw [atp_step_miss_eq B [cid, p1, p2, p3] t' st b0 b1 [b2, b3] hhit
      (by rw [G.inv.trans_len]; exact G.hst)]
    have hxlt : rowOf B st b0 < B.num_states := rowOf_lt B G.inv st G.hst b0
    have hmiss2 : ¬ rowOf B (rowOf B st b0) b1 =
        ([cid, p1, p2, p3] : List Nat).getD (b2 :: [b3]).length 0 := by
      rw [hsub b1 hb1 hb1']
      exact hne32
    rw [atp_step_miss_eq B [cid, p1, p2, p3] t' (rowOf B st b0) b1 b2 [b3] hmiss2
      (by rw [G.inv.trans_len]; exact hxlt), hsub b1 hb1 hb1']
    have hp3row : rowOf B p3 b2 = p2 := G.sinv.p3row cid p2 p3 G.hc2 G.hc3 b2
    have hmiss3 : ¬ rowOf B p3 b2 =
        ([cid, p1, p2, p3] : List Nat).getD (b3 :: ([] : List Nat)).length 0 := by
      rw [hp3row]
      exact hne21
    rw [atp_step_miss_eq B [cid, p1, p2, p3] t' p3 b2 b3 [] hmiss3
      (by rw [G.inv.trans_len]; exact hp3lt), hp3row, go_fin_eq]
    exact atp_fin_p2 B s st cid p1 p2 p3 t' b3 G

/-- One `add_transition` call on the handle preserves the full bundle,
for every Unicode scalar value. -/
theorem add_transition_pres (B : DFABuilder) (s st cid p1 p2 p3 c t' : Nat)
    (G : Good s st cid p1 p2 p3 B) :
    Good s st cid p1 p2 p3
      (B.add_transition ⟨st, [cid, p1, p2, p3]⟩ c t') := by
  show Good s st cid p1 p2 p3 (addTransitionGo B [cid, p1, p2, p3] t' st (encodeUtf8 c))
  by_cases h1 : c < 0x80
  · rw [show encodeUtf8 c = [c] from by unfold encodeUtf8; rw [if_pos h1]]
    exact atp_len1 B s st cid p1 p2 p3 t' c G (by omega)
  · by_cases h2 : c < 0x800
    · rw [show encodeUtf8 c = [192 + c / 64, 128 + c % 64] from by
        unfold encodeUtf8; rw [if_neg h1, if_pos h2]]
      exact atp_len2 B s st cid p1 p2 p3 t' _ _ G (by omega) (by omega) (by omega) (by omega)
    · by_cases h3 : c < 0x10000
      · rw [show encodeUtf8 c = [224 + c / 4096, 128 + c / 64 % 64, 128 + c % 64] from by
          unfold encodeUtf8; rw [if_neg h1, if_neg h2, if_pos h3]]
        exact atp_len3 B s st cid p1 p2 p3 t' _ _ _ G (by omega) (by omega) (by omega)
          (by omega) (by omega) (by omega)
      · rw [show encodeUtf8 c = [240 + c / 262144, 128 + c / 4096 % 64, 128 + c / 64 % 64,
            128 + c % 64] from by unfold encodeUtf8; rw [if_neg h1, if_neg h2, if_neg h3]]
        exact atp_len4 B s st cid p1 p2 p3 t' _ _ _ _ G (by omega) (by omega) (by omega)
          (by omega) (by omega) (by omega) (by omega)

/-- All `add_transition` calls of one handle preserve the bundle. -/
theorem foldl_add_transition_pres (ts : List (Nat × Nat)) (sb : DFAStateBuilder)
    (B : DFABuilder) (s st cid p1 p2 p3 : Nat)
    (hsb : sb = ⟨st, [cid, p1, p2, p3]⟩) (G : Good s st cid p1 p2 p3 B) :
    Good s st cid p1 p2 p3
      (ts.foldl (fun acc ct => acc.add_transition sb ct.1 ct.2) B) := by
  subst hsb
  induction ts generalizing B with
  | nil => exact G
  | cons ct rest ih =>
    exact ih _ (add_transition_pres B s st cid p1 p2 p3 ct.1 ct.2 G)

theorem goa_fresh_spec (B : DFABuilder) (k : Utf8State) (h : Inv B)
    (hm : assocFind B.index k = none) :
    (B.get_or_allocate k).1 = B.num_states ∧
    (∀ b, rowOf (B.get_or_allocate k).2 (B.get_or_allocate k).1 b = 0) ∧
    (B.get_or_allocate k).2.distances.getD (B.get_or_allocate k).1 (Distance.AtLeast 255) =
      Distance.AtLeast 255 := by
  obtain ⟨ha1, ha2, ha3, ha4, ha5, ha6, ha7⟩ := allocate_spec B h
  have he1 : (B.get_or_allocate k).1 = (B.allocate).1 := by
    simp [DFABuilder.get_or_allocate, hm]
  have he2 : (B.get_or_allocate k).2 =
      { (B.allocate).2 with index := (k, (B.allocate).1) :: (B.allocate).2.index } := by
    simp [DFABuilder.get_or_allocate, hm]
  refine ⟨by rw [he1, ha1], ?_, ?_⟩
  · intro b
    rw [he1, he2]
    show ((B.allocate).2.transitions).getD (B.allocate).1 (fun _ => 0) b = 0
    rw [ha5, ha1, ← h.trans_len, getD_append_self]
  · rw [he1, he2]
    show ((B.allocate).2.distances).getD (B.allocate).1 (Distance.AtLeast 255) = _
    rw [ha4, ha1, ← h.dist_len, getD_append_self]

/-- `add_state` preserves the structural invariant and the C9 payload for
any unregistered id `s`, and yields the full bundle for the handle. -/
theorem add_state_pres (B : DFABuilder) (t : Nat) (d : Distance) (succ s : Nat)
    (hI : Inv B) (hS : Sinv B) (hV : VSafe s B) (hts : t ≠ s) :
    ∃ sid q0 q1 q2 q3,
      (B.add_state t d succ).1 = ⟨sid, [q0, q1, q2, q3]⟩ ∧
      Good s sid q0 q1 q2 q3 (B.add_state t d succ).2 := by
  obtain ⟨I0, lt0, find0, mono0, _, pers0, rows0, dist0, init0⟩ :=
    goa_spec B (Utf8State.Original t) hI
  set R0 := B.get_or_allocate (Utf8State.Original t) with hR0
  set A1 := { R0.2 with distances := R0.2.distances.set R0.1 d } with hA1
  have I1 : Inv A1 := setDist_inv R0.2 R0.1 d I0
  obtain ⟨I2, lt2, find2, mono2, _, pers2, rows2, dist2, init2⟩ :=
    goa_spec A1 (Utf8State.Original succ) I1
  set R1 := A1.get_or_allocate (Utf8State.Original succ) with hR1
  obtain ⟨J1, ltp1, findp1, monop1, _, persp1, rowsp1, distp1, initp1⟩ :=
    goa_spec R1.2 (Utf8State.Predecessor R1.1 1) I2
  set RP1 := R1.2.get_or_allocate (Utf8State.Predecessor R1.1 1) with hRP1
  set A3 := { RP1.2 with transitions := RP1.2.transitions.set RP1.1 (fun _ => R1.1) } with hA3
  have I3 : Inv A3 := setRow_inv RP1.2 RP1.1 (fun _ => R1.1) J1
    (fun _ => Nat.lt_of_lt_of_le lt2 monop1)
  obtain ⟨J2, ltp2, findp2, monop2, _, persp2, rowsp2, distp2, initp2⟩ :=
    goa_spec A3 (Utf8State.Predecessor R1.1 2) I3
  set RP2 := A3.get_or_allocate (Utf8State.Predecessor R1.1 2) with hRP2
  set A4 := { RP2.2 with transitions := RP2.2.transitions.set RP2.1 (fun _ => RP1.1) } with hA4
  have I4 : Inv A4 := setRow_inv RP2.2 RP2.1 (fun _ => RP1.1) J2
    (fun _ => Nat.lt_of_lt_of_le ltp1 monop2)
  obtain ⟨J3, ltp3, findp3, monop3, _, persp3, rowsp3, distp3, initp3⟩ :=
    goa_spec A4 (Utf8State.Predecessor R1.1 3) I4
  set RP3 := A4.get_or_allocate (Utf8State.Predecessor R1.1 3) with hRP3
  set A5 := { RP3.2 with transitions := RP3.2.transitions.set RP3.1 (fun _ => RP2.1) } with hA5
  have I5 : Inv A5 := setRow_inv RP3.2 RP3.1 (fun _ => RP2.1) J3
    (fun _ => Nat.lt_of_lt_of_le ltp2 monop3)
  set rowFn : Row := fun b =>
    if b < 192 then R1.1 else if b < 224 then RP1.1 else if b < 240 then RP2.1 else RP3.1
    with hrowFn
  set A6 := { A5 with transitions := A5.transitions.set R0.1 rowFn } with hA6
  have heq : B.add_state t d succ = (⟨R0.1, [R1.1, RP1.1, RP2.1, RP3.1]⟩, A6) := rfl
  have find0A : assocFind A6.index (Utf8State.Original t) = some R0.1 :=
    persp3 _ _ (persp2 _ _ (persp1 _ _ (pers2 _ _ find0)))
  have find2A : assocFind A6.index (Utf8State.Original succ) = some R1.1 :=
    persp3 _ _ (persp2 _ _ (persp1 _ _ find2))
  have findp1A : assocFind A6.index (Utf8State.Predecessor R1.1 1) = some RP1.1 :=
    persp3 _ _ (persp2 _ _ findp1)
  have findp2A : assocFind A6.index (Utf8State.Predecessor R1.1 2) = some RP2.1 :=
    persp3 _ _ findp2
  have findp3A : assocFind A6.index (Utf8State.Predecessor R1.1 3) = some RP3.1 := findp3
  obtain ⟨sid, q0, q1, q2, q3, hh0, I6', mono', hlt', f0A', f2A', fp1A', fp2A', fp3A',
    rowS', row1F', row2F', row3F', persA'⟩ := add_state_spec B t d succ hI
  have hsid : sid = R0.1 := by
    have h1 : assocFind (B.add_state t d succ).2.index (Utf8State.Original t) =
        some R0.1 := find0A
    exact Option.some_inj.mp (f0A'.symm.trans h1)
  subst hsid
  have hq0 : q0 = R1.1 := by
    have h1 : assocFind (B.add_state t d succ).2.index (Utf8State.Original succ) =
        some R1.1 := find2A
    exact Option.some_inj.mp (f2A'.symm.trans h1)
  subst hq0
  have hq1 : q1 = RP1.1 := by
    have h1 : assocFind (B.add_state t d succ).2.index (Utf8State.Predecessor R1.1 1) =
        some RP1.1 := findp1A
    exact Option.some_inj.mp (fp1A'.symm.trans h1)
  subst hq1
  have hq2 : q2 = RP2.1 := by
    have h1 : assocFind (B.add_state t d succ).2.index (Utf8State.Predecessor R1.1 2) =
        some RP2.1 := findp2A
    exact Option.some_inj.mp (fp2A'.symm.trans h1)
  subst hq2
  have hq3 : q3 = RP3.1 := by
    have h1 : assocFind (B.add_state t d succ).2.index (Utf8State.Predecessor R1.1 3) =
        some RP3.1 := findp3A
    exact Option.some_inj.mp (fp3A'.symm.trans h1)
  subst hq3
  have I6 : Inv A6 := I6'
  have hlt : R0.1 < A6.num_states := hlt'
  have rowS : ∀ b, rowOf A6 R0.1 b =
      if b < 192 then R1.1 else if b < 224 then RP1.1 else if b < 240 then RP2.1
      else RP3.1 := rowS'
  have row1F : ∀ b, rowOf A6 RP1.1 b = R1.1 := row1F'
  have row2F : ∀ b, rowOf A6 RP2.1 b = RP1.1 := row2F'
  have row3F : ∀ b, rowOf A6 RP3.1 b = RP2.1 := row3F'
  have persA : ∀ k v, assocFind B.index k = some v → assocFind A6.index k = some v := persA'
  -- frames
  have hframe1 : ∀ j, j < R1.2.num_states → j ≠ RP1.1 → j ≠ RP2.1 → j ≠ RP3.1 →
      j ≠ R0.1 → ∀ b, rowOf A6 j b = rowOf R1.2 j b := by
    intro j hj h1 h2 h3 h0 b
    have e6 : rowOf A6 j = rowOf A5 j := rowOf_set_ne A5 R0.1 j rowFn (fun hh => h0 hh.symm)
    have e5 : rowOf A5 j = rowOf RP3.2 j :=
      rowOf_set_ne RP3.2 RP3.1 j _ (fun hh => h3 hh.symm)
    have e4 : rowOf RP3.2 j b = rowOf A4 j b :=
      rowsp3 j (Nat.lt_of_lt_of_le hj (Nat.le_trans monop1 monop2)) b
    have e3 : rowOf A4 j = rowOf RP2.2 j :=
      rowOf_set_ne RP2.2 RP2.1 j _ (fun hh => h2 hh.symm)
    have e2b : rowOf RP2.2 j b = rowOf A3 j b := rowsp2 j (Nat.lt_of_lt_of_le hj monop1) b
    have e2a : rowOf A3 j = rowOf RP1.2 j :=
      rowOf_set_ne RP1.2 RP1.1 j _ (fun hh => h1 hh.symm)
    have e1 : rowOf RP1.2 j b = rowOf R1.2 j b := rowsp1 j hj b
    rw [e6, e5, e4, e3, e2b, e2a, e1]
  have hframeB : ∀ j, j < B.num_states → j ≠ RP1.1 → j ≠ RP2.1 → j ≠ RP3.1 →
      j ≠ R0.1 → ∀ b, rowOf A6 j b = rowOf B j b := by
    intro j hj h1 h2 h3 h0 b
    have hjR1 : j < R1.2.num_states := Nat.lt_of_lt_of_le hj (Nat.le_trans mono0 mono2)
    rw [hframe1 j hjR1 h1 h2 h3 h0 b, rows2 j (Nat.lt_of_lt_of_le hj mono0) b]
    exact rows0 j hj b
  have hdframe1 : ∀ i (dd : Distance), i < R1.2.num_states →
      A6.distances.getD i dd = R1.2.distances.getD i dd := by
    intro i dd hi
    rw [show A6.distances = RP3.2.distances from rfl,
      distp3 i dd (Nat.lt_of_lt_of_le hi (Nat.le_trans monop1 monop2)),
      show A4.distances = RP2.2.distances from rfl,
      distp2 i dd (Nat.lt_of_lt_of_le hi monop1),
      show A3.distances = RP1.2.distances from rfl, distp1 i dd hi]
  have hdframeB : ∀ i (dd : Distance), i < B.num_states → i ≠ R0.1 →
      A6.distances.getD i dd = B.distances.getD i dd := by
    intro i dd hi hi0
    rw [hdframe1 i dd (Nat.lt_of_lt_of_le hi (Nat.le_trans mono0 mono2)),
      dist2 i dd (Nat.lt_of_lt_of_le hi mono0)]
    show (R0.2.distances.set R0.1 d).getD i dd = B.distances.getD i dd
    rw [getD_set_ne _ _ _ _ _ (fun hh => hi0 hh.symm)]
    exact dist0 i dd hi
  have hback : ∀ k2 v2, assocFind A6.index k2 = some v2 →
      k2 ≠ Utf8State.Original t → k2 ≠ Utf8State.Original succ →
      k2 ≠ Utf8State.Predecessor R1.1 1 → k2 ≠ Utf8State.Predecessor R1.1 2 →
      k2 ≠ Utf8State.Predecessor R1.1 3 →
      assocFind B.index k2 = some v2 := by
    intro k2 v2 h hk0 hk2 hkp1 hkp2 hkp3
    rcases goa_bindings A4 (Utf8State.Predecessor R1.1 3) k2 v2 h with h5 | ⟨hk, _, _⟩
    · rcases goa_bindings A3 (Utf8State.Predecessor R1.1 2) k2 v2 h5 with h4 | ⟨hk, _, _⟩
      · rcases goa_bindings R1.2 (Utf8State.Predecessor R1.1 1) k2 v2 h4 with h3 | ⟨hk, _, _⟩
        · rcases goa_bindings A1 (Utf8State.Original succ) k2 v2 h3 with h2 | ⟨hk, _, _⟩
          · rcases goa_bindings B (Utf8State.Original t) k2 v2 h2 with h1 | ⟨hk, _, _⟩
            · exact h1
            · exact absurd hk hk0
          · exact absurd hk hk2
        · exact absurd hk hkp1
      · exact absurd hk hkp2
    · exact absurd hk hkp3
  have hNIfin : ∀ x, NotInterned B x → x < B.num_states → NotInterned A6 x := by
    intro x hx hxlt
    have n0 : NotInterned R0.2 x := notInterned_goa B _ x hx hxlt
    have n1 : NotInterned R1.2 x :=
      notInterned_goa A1 _ x n0 (Nat.lt_of_lt_of_le hxlt mono0)
    have n2 : NotInterned RP1.2 x :=
      notInterned_goa R1.2 _ x n1 (Nat.lt_of_lt_of_le hxlt (Nat.le_trans mono0 mono2))
    have n3 : NotInterned RP2.2 x := notInterned_goa A3 _ x n2
      (Nat.lt_of_lt_of_le hxlt (Nat.le_trans mono0 (Nat.le_trans mono2 monop1)))
    have n4 : NotInterned RP3.2 x := notInterned_goa A4 _ x n3
      (Nat.lt_of_lt_of_le hxlt (Nat.le_trans mono0 (Nat.le_trans mono2
        (Nat.le_trans monop1 monop2))))
    exact n4
  have hNEstage : ∀ x, NotInterned B x → x < B.num_states →
      x ≠ R0.1 ∧ x ≠ RP1.1 ∧ x ≠ RP2.1 ∧ x ≠ RP3.1 := by
    intro x hx hxlt
    have n0 : NotInterned R0.2 x := notInterned_goa B _ x hx hxlt
    have n1 : NotInterned R1.2 x :=
      notInterned_goa A1 _ x n0 (Nat.lt_of_lt_of_le hxlt mono0)
    have n2 : NotInterned RP1.2 x :=
      notInterned_goa R1.2 _ x n1 (Nat.lt_of_lt_of_le hxlt (Nat.le_trans mono0 mono2))
    have n3 : NotInterned RP2.2 x := notInterned_goa A3 _ x n2
      (Nat.lt_of_lt_of_le hxlt (Nat.le_trans mono0 (Nat.le_trans mono2 monop1)))
    refine ⟨notInterned_ne_goa_id B _ x hx hxlt, ?_, ?_, ?_⟩
    · exact notInterned_ne_goa_id R1.2 _ x n1
        (Nat.lt_of_lt_of_le hxlt (Nat.le_trans mono0 mono2))
    · exact notInterned_ne_goa_id A3 _ x n2
        (Nat.lt_of_lt_of_le hxlt (Nat.le_trans mono0 (Nat.le_trans mono2 monop1)))
    · exact notInterned_ne_goa_id A4 _ x n3
        (Nat.lt_of_lt_of_le hxlt (Nat.le_trans mono0 (Nat.le_trans mono2
          (Nat.le_trans monop1 monop2))))
  have hLsid : LocalE A6 R0.1 RP1.1 RP2.1 RP3.1 := by
    refine ⟨?_, ?_, ?_⟩
    · intro b hb hb'
      refine Or.inl ?_
      rw [rowS b, if_neg (by omega), if_pos (by omega)]
    · intro b hb hb'
      refine Or.inl ?_
      rw [rowS b, if_neg (by omega), if_neg (by omega), if_pos (by omega)]
    · intro b hb
      refine Or.inl ?_
      rw [rowS b, if_neg (by omega), if_neg (by omega), if_neg (by omega)]
  have hfreshsucc : assocFind A1.index (Utf8State.Original succ) = none →
      (∀ b, rowOf A6 R1.1 b = 0) ∧
      A6.distances.getD R1.1 (Distance.AtLeast 255) = Distance.AtLeast 255 ∧
      R1.1 = A1.num_states := by
    intro hmiss1
    obtain ⟨hfr1, hfr2, hfr3⟩ := goa_fresh_spec A1 (Utf8State.Original succ) I1 hmiss1
    have hne1 : R1.1 ≠ RP1.1 := ne_of_keys A6 I6 _ _ _ _ find2A findp1A
      (by intro hh; exact Utf8State.noConfusion hh)
    have hne2 : R1.1 ≠ RP2.1 := ne_of_keys A6 I6 _ _ _ _ find2A findp2A
      (by intro hh; exact Utf8State.noConfusion hh)
    have hne3 : R1.1 ≠ RP3.1 := ne_of_keys A6 I6 _ _ _ _ find2A findp3A
      (by intro hh; exact Utf8State.noConfusion hh)
    have hne0 : R1.1 ≠ R0.1 := by
      rw [hfr1]
      exact Nat.ne_of_gt lt0
    refine ⟨?_, ?_, hfr1⟩
    · intro b
      rw [hframe1 R1.1 lt2 hne1 hne2 hne3 hne0 b]
      exact hfr2 b
    · rw [hdframe1 R1.1 _ lt2]
      exact hfr3
  have hR01fresh : assocFind B.index (Utf8State.Original t) = none →
      R0.1 = B.num_states := by
    intro hm0
    rw [hR0]
    simp [DFABuilder.get_or_allocate, hm0]
    rfl
  have hSA6 : Sinv A6 := by
    constructor
    · intro cid' p2' p3' h2 h3 b
      by_cases hcq : cid' = R1.1
      · subst hcq
        have e2 : p2' = RP2.1 := Option.some_inj.mp (h2.symm.trans findp2A)
        have e3 : p3' = RP3.1 := Option.some_inj.mp (h3.symm.trans findp3A)
        subst e2
        subst e3
        exact row3F b
      · have h2B : assocFind B.index (Utf8State.Predecessor cid' 2) = some p2' :=
          hback _ _ h2 (by intro hh; exact Utf8State.noConfusion hh)
            (by intro hh; exact Utf8State.noConfusion hh)
            (by intro hh; injection hh with hhc hhn; exact absurd hhn (by decide))
            (by intro hh; injection hh with hhc hhn; exact hcq hhc)
            (by intro hh; injection hh with hhc hhn; exact absurd hhn (by decide))
        have h3B : assocFind B.index (Utf8State.Predecessor cid' 3) = some p3' :=
          hback _ _ h3 (by intro hh; exact Utf8State.noConfusion hh)
            (by intro hh; exact Utf8State.noConfusion hh)
            (by intro hh; injection hh with hhc hhn; exact absurd hhn (by decide))
            (by intro hh; injection hh with hhc hhn; exact absurd hhn (by decide))
            (by intro hh; injection hh with hhc hhn; exact hcq hhc)
        have hp3lt : p3' < B.num_states := hI.index_lt _ _ h3B
        have hne1 : p3' ≠ RP1.1 := ne_of_keys A6 I6 _ _ _ _ h3 findp1A
          (by intro hh; injection hh with hhc hhn; exact absurd hhn (by decide))
        have hne2 : p3' ≠ RP2.1 := ne_of_keys A6 I6 _ _ _ _ h3 findp2A
          (by intro hh; injection hh with hhc hhn; exact absurd hhn (by decide))
        have hne3 : p3' ≠ RP3.1 := ne_of_keys A6 I6 _ _ _ _ h3 findp3A
          (by intro hh; injection hh with hhc hhn; exact hcq hhc)
        have hne0 : p3' ≠ R0.1 := ne_of_keys A6 I6 _ _ _ _ h3 find0A
          (by intro hh; exact Utf8State.noConfusion hh)
        rw [hframeB p3' hp3lt hne1 hne2 hne3 hne0 b]
        exact hS.p3row cid' p2' p3' h2B h3B b
    · intro u st'' hst''
      by_cases hut : st'' = R0.1
      · subst hut
        exact Or.inr ⟨R1.1, RP1.1, RP2.1, RP3.1, findp1A, findp2A, findp3A, hLsid⟩
      · -- trace the binding back through the five interning stages
        rcases goa_bindings A4 (Utf8State.Predecessor R1.1 3) _ _ hst'' with h5 | ⟨hk, _, _⟩
        swap
        · exact absurd hk (by intro hh; exact Utf8State.noConfusion hh)
        rcases goa_bindings A3 (Utf8State.Predecessor R1.1 2) _ _ h5 with h4 | ⟨hk, _, _⟩
        swap
        · exact absurd hk (by intro hh; exact Utf8State.noConfusion hh)
        rcases goa_bindings R1.2 (Utf8State.Predecessor R1.1 1) _ _ h4 with h3 | ⟨hk, _, _⟩
        swap
        · exact absurd hk (by intro hh; exact Utf8State.noConfusion hh)
        rcases goa_bindings A1 (Utf8State.Original succ) _ _ h3 with h2 | ⟨hk, hfv, hm1⟩
        swap
        · -- freshly interned successor id: its row is still all-zero
          obtain ⟨hz, _, hq0num⟩ := hfreshsucc hm1
          refine Or.inl ?_
          intro b
          rw [hfv, ← hq0num]
          exact hz b
        rcases goa_bindings B (Utf8State.Original t) _ _ h2 with h1 | ⟨hk, hfv, hm0⟩
        swap
        · -- the registered state itself: excluded by `hut`
          exact absurd (hfv.trans (hR01fresh hm0).symm) hut
        -- an old binding: transport its classification
        have hstlt : st'' < B.num_states := hI.index_lt _ _ h1
        have hne1 : st'' ≠ RP1.1 := ne_of_keys A6 I6 _ _ _ _ hst'' findp1A
          (by intro hh; exact Utf8State.noConfusion hh)
        have hne2 : st'' ≠ RP2.1 := ne_of_keys A6 I6 _ _ _ _ hst'' findp2A
          (by intro hh; exact Utf8State.noConfusion hh)
        have hne3 : st'' ≠ RP3.1 := ne_of_keys A6 I6 _ _ _ _ hst'' findp3A
          (by intro hh; exact Utf8State.noConfusion hh)
        rcases hS.strow u st'' h1 with hz | ⟨cid', p1', p2', p3', f1, f2, f3, hL'⟩
        · refine Or.inl ?_
          intro b
          rw [hframeB st'' hstlt hne1 hne2 hne3 hut b]
          exact hz b
        · refine Or.inr ⟨cid', p1', p2', p3', persA _ _ f1, persA _ _ f2, persA _ _ f3,
            ?_, ?_, ?_⟩
          · intro b hb hb'
            rw [hframeB st'' hstlt hne1 hne2 hne3 hut b]
            rcases hL'.1 b hb hb' with hp | ⟨hNI, hsub⟩
            · exact Or.inl hp
            · have helt : rowOf B st'' b < B.num_states := rowOf_lt B hI st'' hstlt b
              obtain ⟨e0, e1, e2, e3⟩ := hNEstage _ hNI helt
              refine Or.inr ⟨hNIfin _ hNI helt, ?_⟩
              intro b2 hb2 hb2'
              rw [hframeB _ helt e1 e2 e3 e0 b2]
              rcases hsub b2 hb2 hb2' with hp2 | ⟨u2, hu2⟩
              · exact Or.inl hp2
              · exact Or.inr ⟨u2, persA _ _ hu2⟩
          · intro b hb hb'
            rw [hframeB st'' hstlt hne1 hne2 hne3 hut b]
            rcases hL'.2.1 b hb hb' with hp | ⟨hNI, hsub⟩
            · exact Or.inl hp
            · have helt : rowOf B st'' b < B.num_states := rowOf_lt B hI st'' hstlt b
              obtain ⟨e0, e1, e2, e3⟩ := hNEstage _ hNI helt
              refine Or.inr ⟨hNIfin _ hNI helt, ?_⟩
              intro b2 hb2 hb2'
              rw [hframeB _ helt e1 e2 e3 e0 b2]
              exact hsub b2 hb2 hb2'
          · intro b hb
            rw [hframeB st'' hstlt hne1 hne2 hne3 hut b]
            rcases hL'.2.2 b hb with hp | ⟨hNI, hsub⟩
            · exact Or.inl hp
            · have helt : rowOf B st'' b < B.num_states := rowOf_lt B hI st'' hstlt b
              obtain ⟨e0, e1, e2, e3⟩ := hNEstage _ hNI helt
              refine Or.inr ⟨hNIfin _ hNI helt, ?_⟩
              intro b2 hb2 hb2'
              rw [hframeB _ helt e1 e2 e3 e0 b2]
              exact hsub b2 hb2 hb2'
  have hVA6 : VSafe s A6 := by
    intro w hw
    have hwne0 : w ≠ R0.1 := ne_of_keys A6 I6 _ _ _ _ hw find0A
      (by intro hh; injection hh with hh2; exact hts hh2.symm)
    have hwne1 : w ≠ RP1.1 := ne_of_keys A6 I6 _ _ _ _ hw findp1A
      (by intro hh; exact Utf8State.noConfusion hh)
    have hwne2 : w ≠ RP2.1 := ne_of_keys A6 I6 _ _ _ _ hw findp2A
      (by intro hh; exact Utf8State.noConfusion hh)
    have hwne3 : w ≠ RP3.1 := ne_of_keys A6 I6 _ _ _ _ hw findp3A
      (by intro hh; exact Utf8State.noConfusion hh)
    rcases goa_bindings A4 (Utf8State.Predecessor R1.1 3) _ _ hw with h5 | ⟨hk, _, _⟩
    swap
    · exact absurd hk (by intro hh; exact Utf8State.noConfusion hh)
    rcases goa_bindings A3 (Utf8State.Predecessor R1.1 2) _ _ h5 with h4 | ⟨hk, _, _⟩
    swap
    · exact absurd hk (by intro hh; exact Utf8State.noConfusion hh)
    rcases goa_bindings R1.2 (Utf8State.Predecessor R1.1 1) _ _ h4 with h3 | ⟨hk, _, _⟩
    swap
    · exact absurd hk (by intro hh; exact Utf8State.noConfusion hh)
    rcases goa_bindings A1 (Utf8State.Original succ) _ _ h3 with h2 | ⟨hk, hfv, hm1⟩
    swap
    · -- `s` was first referenced as this call's default successor
      obtain ⟨hz, hd, hq0num⟩ := hfreshsucc hm1
      have hwq : w = R1.1 := hfv.trans hq0num.symm
      subst hwq
      exact ⟨hd, hz⟩
    rcases goa_bindings B (Utf8State.Original t) _ _ h2 with h1 | ⟨hk, hfv, hm0⟩
    swap
    · exact absurd (by injection hk with hh2; exact hh2.symm : t = s) hts
    obtain ⟨hd, hr⟩ := hV w h1
    have hwlt : w < B.num_states := hI.index_lt _ _ h1
    refine ⟨?_, ?_⟩
    · rw [hdframeB w _ hwlt hwne0]
      exact hd
    · intro b
      rw [hframeB w hwlt hwne1 hwne2 hwne3 hwne0 b]
      exact hr b
  refine ⟨R0.1, R1.1, RP1.1, RP2.1, RP3.1, hh0, I6, hSA6, hVA6, hlt, ⟨t, find0A⟩,
    findp1A, findp2A, findp3A, hLsid, ?_⟩
  intro w hw
  exact ne_of_keys A6 I6 _ _ _ _ hw find0A
    (by intro hh; injection hh with hh2; exact hts hh2.symm)

theorem set_initial_pres (B : DFABuilder) (i s : Nat) (hI : Inv B) (hS : Sinv B)
    (hV : VSafe s B) :
    Sinv (B.set_initial_state i) ∧ VSafe s (B.set_initial_state i) := by
  have h1 : Sinv (B.get_or_allocate (Utf8State.Original i)).2 := sinv_goa_orig B i hI hS
  have h2 : VSafe s (B.get_or_allocate (Utf8State.Original i)).2 := vsafe_goa B _ s hI hV
  exact ⟨⟨h1.p3row, h1.strow⟩, fun v hv => h2 v hv⟩

/-- Any single builder operation that does not register `s` preserves all
three invariants. -/
theorem runOp_pres (B : DFABuilder) (op : BuilderOp) (s : Nat)
    (hI : Inv B) (hS : Sinv B) (hV : VSafe s B)
    (hop : ∀ d succ trs, op ≠ BuilderOp.addState s d succ trs) :
    Inv (runOp B op) ∧ Sinv (runOp B op) ∧ VSafe s (runOp B op) := by
  cases op with
  | setInitial i =>
    obtain ⟨hS', hV'⟩ := set_initial_pres B i s hI hS hV
    exact ⟨(set_initial_state_inv B i hI).1, hS', hV'⟩
  | addState t dd succ ts =>
    have hts : t ≠ s := by
      intro hh
      exact hop dd succ ts (by rw [hh])
    obtain ⟨sid, q0, q1, q2, q3, hh, G⟩ := add_state_pres B t dd succ s hI hS hV hts
    have G2 : Good s sid q0 q1 q2 q3
        (ts.foldl (fun acc ct => acc.add_transition (B.add_state t dd succ).1 ct.1 ct.2)
          (B.add_state t dd succ).2) :=
      foldl_add_transition_pres ts (B.add_state t dd succ).1 (B.add_state t dd succ).2
        s sid q0 q1 q2 q3 hh G
    exact ⟨G2.inv, G2.sinv, G2.vsafe⟩

theorem foldl_runOp_pres (ops : List BuilderOp) (B : DFABuilder) (s : Nat)
    (hI : Inv B) (hS : Sinv B) (hV : VSafe s B)
    (hops : ∀ op ∈ ops, ∀ d succ trs, op ≠ BuilderOp.addState s d succ trs) :
    Inv (ops.foldl runOp B) ∧ Sinv (ops.foldl runOp B) ∧ VSafe s (ops.foldl runOp B) := by
  induction ops generalizing B with
  | nil => exact ⟨hI, hS, hV⟩
  | cons op rest ih =>
    obtain ⟨hI', hS', hV'⟩ := runOp_pres B op s hI hS hV (hops op (List.mem_cons_self _ _))
    exact ih _ hI' hS' hV' (fun op2 hop2 => hops op2 (List.mem_cons_of_mem _ hop2))

/-- The three invariants hold after any builder session that never calls
`add_state` for `s`. -/
theorem runOps_pres (ops : List BuilderOp) (s : Nat)
    (hops : ∀ op ∈ ops, ∀ d succ trs, op ≠ BuilderOp.addState s d succ trs) :
    Inv (runOps ops) ∧ Sinv (runOps ops) ∧ VSafe s (runOps ops) :=
  foldl_runOp_pres ops _ s (inv_with_capacity _) (sinv_with_capacity _)
    (vsafe_with_capacity s _) hops

/-- The state reached by the loop of `DFA::eval` after consuming the
input, starting from an explicit current state (`none` models the panic
of an out-of-range index during the loop). -/
def DFA.evalState (dfa : DFA) (state : Nat) : List Nat → Option Nat
  | [] => some state
  | b :: rest =>
      match dfa.transition state b with
      | some state2 => dfa.evalState state2 rest
      | none => none

theorem evalState_evalFrom (A : DFA) :
    ∀ (bs : List Nat) (st v : Nat), A.evalState st bs = some v →
      A.evalFrom st bs = A.distance v := by
  intro bs
  induction bs with
  | nil =>
    intro st v h
    have hv : st = v := Option.some_inj.mp h
    show A.distance st = A.distance v
    rw [hv]
  | cons b rest ih =>
    intro st v h
    have h' : (match A.transition st b with
        | some state2 => A.evalState state2 rest
        | none => none) = some v := h
    cases ht : A.transition st b with
    | some s2 =>
      rw [ht] at h'
      rw [evalFrom_cons A st b s2 rest ht]
      exact ih s2 v h'
    | none =>
      rw [ht] at h'
      exact Option.noConfusion h'

theorem distance_getD (A : DFA) (v : Nat) (hv : v < A.distances.length) (d : Distance) :
    A.distance v = some (A.distances.getD v d) := by
  show A.distances[v]? = _
  rw [List.getElem?_eq_getElem hv, getD_eq_get A.distances v d hv]
  rfl

/-- C9: referencing a state id — as a default successor, a transition
destination, or the initial state — without ever registering it through
`add_state` fails no builder or evaluation operation.  For every builder
session `ops` that never calls `add_state` for `s`, and every id `v` that
`s`'s key was interned to (i.e. `s` was referenced), the built automaton
keeps the sentinel there: `distance` is defined and returns the maximum
sentinel `AtLeast 255`, the transition row is all zeros (`transition` is
defined and returns state 0 for every byte), and any evaluation whose
state loop ends on `v` returns `some (AtLeast 255)`. -/
theorem unregistered_reference_yields_sentinel (ops : List BuilderOp) (s : Nat)
    (hno : ∀ op ∈ ops, ∀ d succ trs, op ≠ BuilderOp.addState s d succ trs)
    (v : Nat)
    (hv : assocFind (runOps ops).index (Utf8State.Original s) = some v) :
    ((runOps ops).build).distance v = some (Distance.AtLeast 255) ∧
    (∀ b, ((runOps ops).build).transition v b = some 0) ∧
    (∀ st0 bs, ((runOps ops).build).evalState st0 bs = some v →
      ((runOps ops).build).evalFrom st0 bs = some (Distance.AtLeast 255)) := by
  obtain ⟨hI, hS, hV⟩ := runOps_pres ops s hno
  obtain ⟨hd, hr⟩ := hV v hv
  have hvlt : v < (runOps ops).num_states := hI.index_lt _ _ hv
  have hvlen : v < ((runOps ops).build).distances.length := by
    show v < (runOps ops).distances.length
    rw [hI.dist_len]
    exact hvlt
  have hvtrans : v < (runOps ops).transitions.length := by
    rw [hI.trans_len]
    exact hvlt
  have hdist : ((runOps ops).build).distance v = some (Distance.AtLeast 255) := by
    rw [distance_getD ((runOps ops).build) v hvlen (Distance.AtLeast 255),
      show ((runOps ops).build).distances = (runOps ops).distances from rfl, hd]
  refine ⟨hdist, ?_, ?_⟩
  · intro b
    rw [build_transition_eq (runOps ops) v b hvtrans, hr b]
  · intro st0 bs hsb
    rw [evalState_evalFrom ((runOps ops).build) bs st0 v hsb]
    exact hdist

/-- Witness for C9 at the concrete session `c9ops`: id 7 is referenced as
a default successor, never registered, and interned as state 1. -/
theorem unregistered_reference_yields_sentinel_witness :
    ((runOps c9ops).build).distance 1 = some (Distance.AtLeast 255) ∧
    (∀ b, ((runOps c9ops).build).transition 1 b = some 0) ∧
    (∀ st0 bs, ((runOps c9ops).build).evalState st0 bs = some 1 →
      ((runOps c9ops).build).evalFrom st0 bs = some (Distance.AtLeast 255)) :=
  unregistered_reference_yields_sentinel c9ops 7
    (by
      intro op hop d succ trs
      rcases List.mem_cons.mp hop with h | h
      · subst h
        intro hh
        injection hh with h1 h2 h3 h4
        exact absurd h1 (by decide)
      · rcases List.mem_cons.mp h with h2 | h2
        · subst h2
          intro hh
          exact BuilderOp.noConfusion hh
        · exact absurd h2 (List.not_mem_nil op))
    1 (by decide)

end LevDFA
